import Mathlib

/-!
# SilverDecisions: the `JobsManager` facade, the exporter and the application shell

A shallow embedding of `src/computations/jobs/jobs-manager.js`, of the file-name and PDF
parts of `src/exporter.js`, and of the keyboard handler and `openDiagram` of `src/app.js`.

* Promise-returning repository calls are functions from the repository state to a
  settled outcome (`resolved`, `rejected`, or `pending` for a promise that never
  settles) and a new state.
* Every call that leaves the manager (repository call, log line, listener
  notification) is appended to a chronological trace, so "is called exactly once"
  and "is never called" are statements about that trace.
* Classes imported by `jobs-manager.js` whose files are not part of the sources
  (repository backends, `JobWorker`, `JobExecution`, `JSON.parse`) are parameters or
  are modelled from the specification; each such definition says so.
* The exporter and the application shell are embedded as the list of actions they perform
  on their host (alerts, exports, tree-designer operations), in order; a call that the
  source guards with `try` may throw, as the environment decides.
-/

namespace SilverDecisions

/-! ## Data model -/

/-- Run-time values that an `id` property can hold. Execution ids are strings; the other
cases are what a record with a missing or numeric `id` carries. -/
inductive IdValue
  | undefined
  | str (s : String)
  | num (n : Int)
  deriving DecidableEq, Repr

/-- Modelled from the spec: `engine/job-status.js` is not among the sources; the states are
those of the specification (section 4.3). -/
inductive JobStatus
  | NEW
  | RUNNING
  | FINISHED
  | FAILED
  | STOPPED
  deriving DecidableEq, Repr

/-- Modelled from the spec: `engine/job-execution-flag.js` is not among the sources; the
flag values are those of the specification (section 3). `JOB_EXECUTION_FLAG.STOP` is the
only value the manager writes. -/
inductive JobExecutionFlag
  | NONE
  | STOP
  deriving DecidableEq, Repr

/-- Error values carried by a rejected promise or a thrown exception (specification,
section 7). -/
inductive JobError
  | duplicateJob (name : String)
  | jobNotFound
  | executionNotFound
  | invalidParameter
  | typeError
  | other (msg : String)
  deriving DecidableEq, Repr

/-- Raw parameter values as passed by a caller. -/
abbrev ParameterValues := List (String × Int)

/-- An instance of the `JobParameters` class. -/
structure JobParameters where
  values : ParameterValues
  deriving DecidableEq, Repr

/-- Modelled from the spec: the `JobExecution` class is not among the sources. The record keeps
the properties that `jobs-manager.js` reads (`id`, `status`, `endTime`), the job name and
parameters it was created for, and the persisted flag. -/
structure JobExecution where
  id : IdValue
  jobName : String
  jobParameters : JobParameters
  status : JobStatus
  flag : JobExecutionFlag
  endTime : Option Nat
  deriving DecidableEq, Repr

/-- Modelled from the spec: `JobExecution.isRunning()` is not among the sources; an execution
is running exactly when its status is RUNNING. -/
def JobExecution.isRunning (e : JobExecution) : Bool :=
  e.status == JobStatus.RUNNING

/-- The cheap progress read of the repository: status and step counters only. -/
structure JobExecutionProgress where
  status : JobStatus
  current : Nat
  total : Nat
  deriving DecidableEq, Repr

/-- The argument `jobExecutionOrId` of `getProgress` and `stop`: a string id, or an execution
object carrying an `id` property. -/
inductive ExecutionOrId
  | id (s : String)
  | execution (e : JobExecution)
  deriving DecidableEq, Repr

/-- The first statements of `getProgress` and of `stop`:
`var id = jobExecutionOrId; if(!Utils.isString(jobExecutionOrId)){ id = jobExecutionOrId.id }`.
A string argument is the id itself; for an object the `id` property is read. -/
def resolveId : ExecutionOrId → IdValue
  | .id s => IdValue.str s
  | .execution e => e.id

/-- The first argument of `getJobByName`: a job name, or (from the second branch of
`getLastJobExecution`) a raw values object. -/
inductive JobNameArg
  | name (s : String)
  | values (v : ParameterValues)
  deriving DecidableEq, Repr

/-- The second argument of `getLastJobExecution`: an instance of `JobParameters`, or anything
else (raw values). -/
inductive JobParametersArg
  | params (p : JobParameters)
  | values (v : ParameterValues)
  deriving DecidableEq, Repr

/-- Objects created with `new` while the constructor runs. -/
inductive Allocation
  | IdbJobRepository
  | SimpleJobRepository
  | SensitivityAnalysisJob
  | JobWorker (url : String)
  | JobLauncher
  deriving DecidableEq, Repr

/-- Identity of a registered `JobExecutionListener` object. -/
abbrev ListenerId := Nat

/-- The payload of a log line. -/
inductive LogMessage
  | executionNotFound (arg : ExecutionOrId)
  | executionNotRunning (status : JobStatus) (endTime : Option Nat)
  | beforeJob (useWorker : Bool) (e : JobExecution)
  | afterJob (useWorker : Bool) (e : JobExecution)
  deriving DecidableEq, Repr

/-- Everything the manager does that is visible outside it. -/
inductive Event
  | getJobExecutionById (id : IdValue)
  | getJobExecutionProgress (id : IdValue)
  | saveJobExecutionFlag (id : IdValue) (flag : JobExecutionFlag)
  | getLastJobExecution (jobName : String) (p : JobParameters)
  | getJobByName (jobName : JobNameArg)
  | construct (a : Allocation)
  | registerJob (jobName : String)
  | registerExecutionListener (jobName : String)
  | logError (msg : LogMessage)
  | logWarn (msg : LogMessage)
  | logDebug (msg : LogMessage)
  | listenerBeforeJob (l : ListenerId) (e : JobExecution)
  | listenerAfterJob (l : ListenerId) (e : JobExecution)
  deriving DecidableEq, Repr

/-- How a promise ends: resolved with a value, rejected with an error, or never settled. -/
inductive Settled (α : Type)
  | resolved (v : α)
  | rejected (err : JobError)
  | pending
  deriving DecidableEq, Repr

/-- The repository state together with the chronological trace of outgoing calls. -/
structure World (σ : Type) where
  store : σ
  trace : List Event

/-- Append one event to the trace. -/
def World.emit {σ : Type} (w : World σ) (ev : Event) : World σ :=
  { w with trace := w.trace ++ [ev] }

/-- A registered job. `createJobParameters` is the factory of the job (not among the
sources), taken as given; its argument is `none` when the caller passes `undefined`. -/
structure Job where
  name : String
  createJobParameters : Option ParameterValues → Except JobError JobParameters

/-- The operations of the `JobRepository` interface that `jobs-manager.js` calls. The two
backends are not among the sources, so the operations are parameters: each asynchronous one
maps the store to the way its promise settles and the new store; the synchronous ones
(`registerJob`, `getJobByName`) either return or throw. -/
structure JobRepository (σ : Type) where
  getJobExecutionById : IdValue → σ → Settled (Option JobExecution) × σ
  getJobExecutionProgress : IdValue → σ → Settled JobExecutionProgress × σ
  saveJobExecutionFlag : IdValue → JobExecutionFlag → σ → Settled Unit × σ
  getLastJobExecution : String → JobParameters → σ → Settled (Option JobExecution) × σ
  registerJob : Job → σ → Except JobError Unit × σ
  getJobByName : JobNameArg → σ → Except JobError Job

/-- The two repository classes imported by `jobs-manager.js`. -/
inductive RepositoryKind
  | SimpleJobRepository
  | IdbJobRepository
  deriving DecidableEq, Repr

/-- A repository object: the class it was constructed from and its operations. -/
structure RepositoryInstance (σ : Type) where
  kind : RepositoryKind
  ops : JobRepository σ

/-! ## Worker bridge and launcher -/

/-- The reviver handed out by `expressionEngine.getJsonReviver()`; its identity is all the
manager uses. -/
structure JsonReviver where
  tag : Nat
  deriving DecidableEq, Repr

/-- The expression engine, as far as the manager uses it. `jsonParse` stands for the built-in
`JSON.parse(text, reviver)` applied to the first posted argument (`none` is `undefined`,
when nothing was posted); it throws on text that is not JSON. -/
structure ExpressionEngine where
  jsonReviver : JsonReviver
  jsonParse : Option String → JsonReviver → Except JobError JobExecution

/-- The expressions evaluator passed to the constructor; the manager reads its
`expressionEngine`. -/
structure ExpressionsEvaluator where
  expressionEngine : ExpressionEngine

/-- The objective rules manager passed to the constructor; only stored and passed on. -/
structure ObjectiveRulesManager where
  ruleName : String
  deriving DecidableEq, Repr

/-- The two methods of the manager that `initWorker` hands to the worker as handlers. -/
inductive ManagerMethod
  | beforeJob
  | afterJob
  deriving DecidableEq, Repr

/-- The object passed as `context` to `addListener`. -/
inductive HandlerContext
  | manager
  | global
  deriving DecidableEq, Repr

/-- One entry recorded by `JobWorker.addListener(eventName, handler, context, argsDeserializer)`. -/
structure WorkerListener where
  eventName : String
  handler : ManagerMethod
  context : HandlerContext
  argsDeserializer : List String → Except JobError (List JobExecution)

/-- Modelled from the spec: the `JobWorker` class is not among the sources. A worker is
created for a URL and keeps the listeners registered with `addListener`, in order
(specification, section 4.5). -/
structure JobWorker where
  url : String
  listeners : List WorkerListener

/-- Modelled from the spec: `new JobWorker(url)` (class not among the sources) starts with
no listener. -/
def JobWorker.new (url : String) : JobWorker :=
  { url := url, listeners := [] }

/-- Modelled from the spec: `JobWorker.addListener` (class not among the sources) registers a
handler for a named event (specification, section 4.5). -/
def JobWorker.addListener (jw : JobWorker) (eventName : String) (handler : ManagerMethod)
    (context : HandlerContext) (argsDeserializer : List String → Except JobError (List JobExecution)) :
    JobWorker :=
  { jw with listeners := jw.listeners ++
      [{ eventName := eventName, handler := handler, context := context,
         argsDeserializer := argsDeserializer }] }

/-- What `new JobLauncher(jobRepository, jobWorker, dataSerializer)` receives. The launcher
class is not among the sources; the third argument is the closure over `serializeData`
and is identified by the engine it captures. -/
structure JobLauncher (σ : Type) where
  jobRepository : RepositoryInstance σ
  jobWorker : Option JobWorker
  serializerEngine : ExpressionEngine

/-! ## The manager -/

/-- The fields of a `JobsManager` object. `jobLauncher` is `none` until the last statement
of the constructor assigns it. -/
structure JobsManager (σ : Type) where
  useWorker : Bool
  expressionsEvaluator : ExpressionsEvaluator
  objectiveRulesManager : ObjectiveRulesManager
  expressionEngine : ExpressionEngine
  jobWorker : Option JobWorker
  jobRepository : RepositoryInstance σ
  jobLauncher : Option (JobLauncher σ)
  jobExecutionListeners : List ListenerId

namespace JobsManager

variable {σ : Type}

/-- The method `getProgress(jobExecutionOrId)`: returns the promise of
`jobRepository.getJobExecutionProgress(id)`. -/
def getProgress (m : JobsManager σ) (jobExecutionOrId : ExecutionOrId) (w : World σ) :
    Settled JobExecutionProgress × World σ :=
  let id := resolveId jobExecutionOrId
  let r := m.jobRepository.ops.getJobExecutionProgress id w.store
  (r.1, { store := r.2, trace := w.trace ++ [Event.getJobExecutionProgress id] })

/-- The method `stop(jobExecutionOrId)`: looks the execution up and, in the `then` callback,
returns `null` for a missing one, the execution itself for one that is not running, and
otherwise chains `saveJobExecutionFlag(jobExecution.id, STOP).then(()=>jobExecution)`. -/
def stop (m : JobsManager σ) (jobExecutionOrId : ExecutionOrId) (w : World σ) :
    Settled (Option JobExecution) × World σ :=
  let id := resolveId jobExecutionOrId
  let found := m.jobRepository.ops.getJobExecutionById id w.store
  let w1 : World σ := { store := found.2, trace := w.trace ++ [Event.getJobExecutionById id] }
  match found.1 with
  | .rejected err => (.rejected err, w1)
  | .pending => (.pending, w1)
  | .resolved none =>
      (.resolved none, w1.emit (Event.logError (LogMessage.executionNotFound jobExecutionOrId)))
  | .resolved (some jobExecution) =>
      if !jobExecution.isRunning then
        (.resolved (some jobExecution),
          w1.emit (Event.logWarn
            (LogMessage.executionNotRunning jobExecution.status jobExecution.endTime)))
      else
        let saved := m.jobRepository.ops.saveJobExecutionFlag jobExecution.id
          JobExecutionFlag.STOP w1.store
        let w2 : World σ :=
          { store := saved.2,
            trace := w1.trace ++ [Event.saveJobExecutionFlag jobExecution.id JobExecutionFlag.STOP] }
        match saved.1 with
        | .resolved _ => (.resolved (some jobExecution), w2)
        | .rejected err => (.rejected err, w2)
        | .pending => (.pending, w2)

/-- The method `registerJobExecutionListener(listener)`: `jobExecutionListeners.push(listener)`. -/
def registerJobExecutionListener (m : JobsManager σ) (listener : ListenerId) : JobsManager σ :=
  { m with jobExecutionListeners := m.jobExecutionListeners ++ [listener] }

/-- The method `beforeJob(jobExecution)`: a debug line, then
`jobExecutionListeners.forEach(l=>l.beforeJob(jobExecution))`. A call of a listener is
recorded as an event; listeners are callbacks of the host and are taken to return. -/
def beforeJob (m : JobsManager σ) (jobExecution : JobExecution) (w : World σ) : World σ :=
  m.jobExecutionListeners.foldl
    (fun acc l => acc.emit (Event.listenerBeforeJob l jobExecution))
    (w.emit (Event.logDebug (LogMessage.beforeJob m.useWorker jobExecution)))

/-- The method `afterJob(jobExecution)`: a debug line, then
`jobExecutionListeners.forEach(l=>l.afterJob(jobExecution))`, recorded like `beforeJob`. -/
def afterJob (m : JobsManager σ) (jobExecution : JobExecution) (w : World σ) : World σ :=
  m.jobExecutionListeners.foldl
    (fun acc l => acc.emit (Event.listenerAfterJob l jobExecution))
    (w.emit (Event.logDebug (LogMessage.afterJob m.useWorker jobExecution)))

/-- The method `createJobParameters(jobName, jobParametersValues)`: the synchronous lookup
`jobRepository.getJobByName(jobName)` followed by the factory of the job. -/
def createJobParameters (m : JobsManager σ) (jobName : JobNameArg)
    (jobParametersValues : Option ParameterValues) (w : World σ) :
    Except JobError JobParameters × World σ :=
  let w1 := w.emit (Event.getJobByName jobName)
  match m.jobRepository.ops.getJobByName jobName w.store with
  | .error err => (.error err, w1)
  | .ok job => (job.createJobParameters jobParametersValues, w1)

/-- What a call of `getLastJobExecution` hands back: the value of the field `jobWorker`
(first branch), a promise of the repository, or an exception thrown on the way. -/
inductive LastExecutionResult
  | jobWorker (jw : Option JobWorker)
  | promise (p : Settled (Option JobExecution))
  | thrown (err : JobError)

/-- The method `getLastJobExecution(jobName, jobParameters)`:
`if(this.useWorker){ return this.jobWorker; }`, then the conversion of an argument that is
not an instance of `JobParameters` through `this.createJobParameters(jobParameters)` (one
argument, so the values object is passed as the job name), then the repository call. -/
def getLastJobExecution (m : JobsManager σ) (jobName : String) (jobParameters : JobParametersArg)
    (w : World σ) : LastExecutionResult × World σ :=
  if m.useWorker then
    (.jobWorker m.jobWorker, w)
  else
    let converted : Except JobError JobParameters × World σ :=
      match jobParameters with
      | .params p => (.ok p, w)
      | .values v => m.createJobParameters (JobNameArg.values v) none w
    match converted.1 with
    | .error err => (.thrown err, converted.2)
    | .ok p =>
        let r := m.jobRepository.ops.getLastJobExecution jobName p converted.2.store
        (.promise r.1,
          { store := r.2, trace := converted.2.trace ++ [Event.getLastJobExecution jobName p] })

/-- The arrow function `argsDeserializer` of `initWorker`:
`(args)=>{ return [JSON.parse(args[0], this.expressionEngine.getJsonReviver())] }`. -/
def argsDeserializer (engine : ExpressionEngine) (args : List String) :
    Except JobError (List JobExecution) :=
  match engine.jsonParse args.head? engine.jsonReviver with
  | .error err => .error err
  | .ok v => .ok [v]

/-- The method `initWorker(workerUrl)`: creates the worker and registers the two handlers. -/
def initWorker (m : JobsManager σ) (workerUrl : String) : JobsManager σ :=
  let jw0 := JobWorker.new workerUrl
  let deserializer := argsDeserializer m.expressionEngine
  let jw1 := jw0.addListener "beforeJob" ManagerMethod.beforeJob HandlerContext.manager deserializer
  let jw2 := jw1.addListener "afterJob" ManagerMethod.afterJob HandlerContext.manager deserializer
  { m with jobWorker := some jw2 }

/-- The method `registerJob(job)`: `this.jobRepository.registerJob(job)` and, when that
returned, `job.registerExecutionListener(this)`. -/
def registerJob (m : JobsManager σ) (job : Job) (w : World σ) : Except JobError Unit × World σ :=
  let r := m.jobRepository.ops.registerJob job w.store
  let w1 : World σ := { store := r.2, trace := w.trace ++ [Event.registerJob job.name] }
  match r.1 with
  | .error err => (.error err, w1)
  | .ok _ => (.ok (), w1.emit (Event.registerExecutionListener job.name))

/-- The method `registerJobs()`: registers a newly created `SensitivityAnalysisJob`. The job
class is not among the sources, so the created job is a parameter. -/
def registerJobs (m : JobsManager σ) (sensitivityAnalysisJob : Job) (w : World σ) :
    Except JobError Unit × World σ :=
  m.registerJob sensitivityAnalysisJob (w.emit (Event.construct Allocation.SensitivityAnalysisJob))

end JobsManager

/-- The value of `!!workerUrl` for a URL that is `null`/`undefined` (`none`) or a string:
only a non-empty string is truthy. -/
def truthy : Option String → Bool
  | none => false
  | some s => s != ""

/-- What the module imports and the constructor instantiates; the classes are not among the
sources. `idbOps`/`simpleOps` are the operations of the two backends, `idbStore` is the
store a new `IdbJobRepository` opens on, and `sensitivityAnalysisJob` is the job object that
`new SensitivityAnalysisJob(...)` yields. -/
structure Imports (σ : Type) where
  idbOps : JobRepository σ
  simpleOps : JobRepository σ
  idbStore : σ
  sensitivityAnalysisJob : Job

/-- The constructor `JobsManager(expressionsEvaluator, objectiveRulesManager, workerUrl)`,
statement by statement. An exception thrown by `registerJobs` aborts the construction.
Fields not assigned yet are `undefined`: `jobWorker` and `jobLauncher` start as `none`, and
`useWorker`, which nothing reads before its assignment, starts as `false`. -/
def JobsManager.constructor {σ : Type} (imports : Imports σ)
    (expressionsEvaluator : ExpressionsEvaluator) (objectiveRulesManager : ObjectiveRulesManager)
    (workerUrl : Option String) : Except JobError (JobsManager σ) × World σ :=
  let this0 : JobsManager σ :=
    { useWorker := false
      expressionsEvaluator := expressionsEvaluator
      objectiveRulesManager := objectiveRulesManager
      expressionEngine := expressionsEvaluator.expressionEngine
      jobWorker := none
      jobRepository := { kind := RepositoryKind.IdbJobRepository, ops := imports.idbOps }
      jobLauncher := none
      jobExecutionListeners := [] }
  let w0 : World σ :=
    { store := imports.idbStore, trace := [Event.construct Allocation.IdbJobRepository] }
  let registered := this0.registerJobs imports.sensitivityAnalysisJob w0
  match registered.1 with
  | .error err => (.error err, registered.2)
  | .ok _ =>
      let this1 : JobsManager σ := { this0 with useWorker := truthy workerUrl }
      let initialised : JobsManager σ × World σ :=
        match workerUrl with
        | some url =>
            if this1.useWorker then
              (this1.initWorker url, registered.2.emit (Event.construct (Allocation.JobWorker url)))
            else (this1, registered.2)
        | none => (this1, registered.2)
      let this2 := initialised.1
      let launcher : JobLauncher σ :=
        { jobRepository := this2.jobRepository
          jobWorker := this2.jobWorker
          serializerEngine := this2.expressionEngine }
      (.ok { this2 with jobLauncher := some launcher },
        initialised.2.emit (Event.construct Allocation.JobLauncher))

/-- Modelled from the spec: event delivery of `JobWorker` (class not among the sources). For
an event posted by the remote context, every handler registered under that name is applied,
in registration order, with its context as `this`, to the deserialized arguments
(specification, section 4.5). A deserializer that throws fails the delivery; so does a
handler whose `this` is not the manager, and one that receives no argument. -/
def JobWorker.post {σ : Type} (jw : JobWorker) (m : JobsManager σ) (eventName : String)
    (args : List String) (w : World σ) : Except JobError (World σ) :=
  (jw.listeners.filter (fun l => l.eventName == eventName)).foldlM
    (fun acc l =>
      match l.argsDeserializer args, l.context with
      | .error err, _ => .error err
      | .ok [], _ => .error JobError.typeError
      | .ok (_ :: _), .global => .error JobError.typeError
      | .ok (e :: _), .manager =>
          match l.handler with
          | .beforeJob => .ok (m.beforeJob e acc)
          | .afterJob => .ok (m.afterJob e acc))
    w

/-! ## An in-memory repository

Used to run the manager on concrete inputs. -/

/-- The store of the in-memory repository: registered jobs, execution records in creation
order, and the progress entries kept beside them. -/
structure SimpleStore where
  jobs : List Job
  executions : List JobExecution
  progress : List (IdValue × JobExecutionProgress)

/-- Modelled from the spec: `SimpleJobRepository` is not among the sources. The operations
follow section 4.1 of the specification: lookup by id, most recent record matching job name
and parameters, a flag write that touches only the flag, and a registry that refuses a name
that is taken. -/
def simpleJobRepository : JobRepository SimpleStore where
  getJobExecutionById := fun id s => (.resolved (s.executions.find? (fun e => e.id == id)), s)
  getJobExecutionProgress := fun id s =>
    match s.progress.find? (fun p => p.1 == id) with
    | some p => (.resolved p.2, s)
    | none => (.rejected JobError.executionNotFound, s)
  saveJobExecutionFlag := fun id flag s =>
    let flagged := s.executions.map (fun e => if e.id == id then { e with flag := flag } else e)
    (.resolved (), { s with executions := flagged })
  getLastJobExecution := fun jobName p s =>
    (.resolved ((s.executions.reverse).find?
      (fun e => e.jobName == jobName && e.jobParameters == p)), s)
  registerJob := fun job s =>
    if s.jobs.any (fun j => j.name == job.name) then (.error (JobError.duplicateJob job.name), s)
    else (.ok (), { s with jobs := s.jobs ++ [job] })
  getJobByName := fun jobName s =>
    match jobName with
    | .name n =>
        match s.jobs.find? (fun j => j.name == n) with
        | some j => .ok j
        | none => .error JobError.jobNotFound
    | .values _ => .error JobError.jobNotFound

/-! ## Observations on a trace -/

/-- The flag writes recorded in a trace, in order. -/
def flagWrites (t : List Event) : List (IdValue × JobExecutionFlag) :=
  t.filterMap (fun ev =>
    match ev with
    | .saveJobExecutionFlag id flag => some (id, flag)
    | _ => none)

/-- The full-record reads recorded in a trace, in order. -/
def recordReads (t : List Event) : List IdValue :=
  t.filterMap (fun ev =>
    match ev with
    | .getJobExecutionById id => some id
    | _ => none)

/-- The listener notifications recorded in a trace, in order. -/
def notifications (t : List Event) : List Event :=
  t.filter (fun ev =>
    match ev with
    | .listenerBeforeJob _ _ => true
    | .listenerAfterJob _ _ => true
    | _ => false)

/-- The objects of a given class created in a trace. -/
def constructed (t : List Event) (p : Allocation → Bool) : List Allocation :=
  t.filterMap (fun ev =>
    match ev with
    | .construct a => if p a then some a else none
    | _ => none)

/-! ## Sample data -/

/-- A sensitivity-analysis job whose factory accepts any values. -/
def sampleJob : Job :=
  { name := "sensitivity-analysis"
    createJobParameters := fun v => .ok { values := v.getD [] } }

/-- A finished execution. -/
def finishedExecution : JobExecution :=
  { id := IdValue.str "e1", jobName := "sensitivity-analysis", jobParameters := { values := [] }
    status := JobStatus.FINISHED, flag := JobExecutionFlag.NONE, endTime := some 7 }

/-- A running execution. -/
def runningExecution : JobExecution :=
  { id := IdValue.str "e2", jobName := "sensitivity-analysis"
    jobParameters := { values := [("n", 3)] }
    status := JobStatus.RUNNING, flag := JobExecutionFlag.NONE, endTime := none }

/-- What the durable backend opens on: the two sample executions persisted by an earlier
session and an empty job registry. -/
def persistedStore : SimpleStore :=
  { jobs := []
    executions := [finishedExecution, runningExecution]
    progress := [(IdValue.str "e2", { status := JobStatus.RUNNING, current := 1, total := 4 })] }

/-- The persisted store once the sensitivity-analysis job is registered. -/
def sampleStore : SimpleStore :=
  { persistedStore with jobs := [sampleJob] }

/-- The world on the sample store, with nothing traced yet. -/
def sampleWorld : World SimpleStore :=
  { store := sampleStore, trace := [] }

/-- An expression engine whose parser accepts only the text `"E2"`, reviving the running
sample execution. -/
def sampleEngine : ExpressionEngine :=
  { jsonReviver := { tag := 0 }
    jsonParse := fun text _ =>
      if text = some "E2" then .ok runningExecution else .error (JobError.other "SyntaxError") }

/-- What the sample application imports: both backends behave like the in-memory
repository, and the durable one opens on the persisted store. -/
def sampleImports : Imports SimpleStore :=
  { idbOps := simpleJobRepository
    simpleOps := simpleJobRepository
    idbStore := persistedStore
    sensitivityAnalysisJob := sampleJob }

/-- A manager without worker on the in-memory repository. -/
def sampleManager : JobsManager SimpleStore :=
  { useWorker := false
    expressionsEvaluator := { expressionEngine := sampleEngine }
    objectiveRulesManager := { ruleName := "expected-value-maximization" }
    expressionEngine := sampleEngine
    jobWorker := none
    jobRepository := { kind := RepositoryKind.IdbJobRepository, ops := simpleJobRepository }
    jobLauncher := none
    jobExecutionListeners := [] }

/-- The manager that the constructor builds for the worker URL `worker.js`. -/
def sampleWorkerManager : JobsManager SimpleStore :=
  { ({ sampleManager with useWorker := true }).initWorker "worker.js" with
    jobLauncher := some
      { jobRepository := sampleManager.jobRepository
        jobWorker := (({ sampleManager with useWorker := true }).initWorker "worker.js").jobWorker
        serializerEngine := sampleEngine } }

/-- The manager that the constructor builds when no worker URL is configured. -/
def sampleLocalManager : JobsManager SimpleStore :=
  { sampleManager with
    jobLauncher := some
      { jobRepository := sampleManager.jobRepository
        jobWorker := none
        serializerEngine := sampleEngine } }

/-- The calls `job.registerExecutionListener(...)` recorded in a trace, by job name. -/
def listenerRegistrations (t : List Event) : List String :=
  t.filterMap (fun ev =>
    match ev with
    | .registerExecutionListener jobName => some jobName
    | _ => none)

/-! ## Exporter: the export file name -/

/-- The local-time fields of a `Date`, as its getters return them: `getFullYear()` (a year of
the common era), `getMonth()` (0 to 11), `getDate()`, `getHours()`, `getMinutes()` and
`getSeconds()`, each within its range. -/
structure LocalDate where
  fullYear : Nat
  month : Nat
  date : Nat
  hours : Nat
  minutes : Nat
  seconds : Nat
  month_lt : month < 12
  date_le : date ≤ 31
  hours_lt : hours < 24
  minutes_lt : minutes < 60
  seconds_lt : seconds < 60

/-- Modelled from the spec: `d3.timeFormat` is a library function, not among the sources; the
model follows the comment `decisiontree@yyyy.mm.dd_hh.mm.ss` above `getExportFileName` and
the documented behaviour of the library. This is its helper `pad(value, fill, width)` for a
non-negative value: the decimal digits of the value, preceded by as many fill characters as
are missing to reach the width. -/
def d3.pad (value : Nat) (fill : Char) (width : Nat) : String :=
  let string := toString value
  if string.length < width then String.mk (List.replicate (width - string.length) fill) ++ string
  else string

/-- Modelled from the spec: the directives of `d3.timeFormat` (library function, not among
the sources) that the format string of `getExportFileName` uses: `%Y` is the year modulo
10000 padded to four digits, `%m` the month number (`getMonth() + 1`), `%d` the day of the
month, `%H`, `%M` and `%S` the hours, minutes and seconds, each padded to two digits. -/
def d3.formatDirective (c : Char) (d : LocalDate) (fill : Char) : Option String :=
  if c = 'Y' then some (d3.pad (d.fullYear % 10000) fill 4)
  else if c = 'm' then some (d3.pad (d.month + 1) fill 2)
  else if c = 'd' then some (d3.pad d.date fill 2)
  else if c = 'H' then some (d3.pad d.hours fill 2)
  else if c = 'M' then some (d3.pad d.minutes fill 2)
  else if c = 'S' then some (d3.pad d.seconds fill 2)
  else none

/-- Modelled from the spec: the scan of the specifier by `d3.timeFormat` (library function,
not among the sources). A character after `%` is replaced by its directive, formatted with
the fill character `0`, or kept when it names no directive; every other character is copied.
Fill modifiers are not modelled, the format string used here has none. -/
def d3.formatChars (d : LocalDate) : List Char → String
  | [] => ""
  | c :: rest =>
    if c = '%' then
      match rest with
      | [] => ""
      | c2 :: rest2 =>
        (d3.formatDirective c2 d '0').getD (String.singleton c2) ++ d3.formatChars d rest2
    else String.singleton c ++ d3.formatChars d rest

/-- Modelled from the spec: `d3.timeFormat(specifier)` applied to a date (library function,
not among the sources). -/
def d3.timeFormat (specifier : String) (d : LocalDate) : String :=
  d3.formatChars d specifier.toList

/-- The static method `Exporter.getExportFileName(ext)`; `date` is the value of `new Date()`,
and `ext` is `none` when the argument is omitted. -/
def Exporter.getExportFileName (date : LocalDate) (ext : Option String) : String :=
  let name := "decisiontree"
  let format := d3.timeFormat "%Y.%m.%d_%H.%M.%S"
  let name := name ++ ("@" ++ format date)
  match ext with
  | some e => if truthy ext then name ++ ("." ++ e) else name
  | none => name

/-- The time stamp `YYYY.MM.DD_HH.MM.SS` of a date, field by field. -/
def exportTimeStamp (d : LocalDate) : String :=
  d3.pad (d.fullYear % 10000) '0' 4 ++ ("." ++ (d3.pad (d.month + 1) '0' 2 ++ ("." ++
    (d3.pad d.date '0' 2 ++ ("_" ++ (d3.pad d.hours '0' 2 ++ ("." ++
      (d3.pad d.minutes '0' 2 ++ ("." ++ d3.pad d.seconds '0' 2)))))))))

/-- The fifth of March 2017, seven minutes and two seconds past nine. -/
def sampleDate : LocalDate :=
  { fullYear := 2017, month := 2, date := 5, hours := 9, minutes := 7, seconds := 2
    month_lt := by decide, date_le := by decide, hours_lt := by decide
    minutes_lt := by decide, seconds_lt := by decide }

/-! ## Exporter: PDF export -/

/-- What the export code does that is visible outside it, in order. -/
inductive ExportAction
  | alert (key : String)
  | loadingShow
  | loadingHide
  | getSVGString
  | exportPdfClientSide
  | newJsPDF (width height : Nat)
  | svg2pdf
  | docSave (filename : String)
  | exportPdfServerSide
  | postAndSave (url : String) (filename : String)
  | consoleLog (msg : String)
  deriving DecidableEq, Repr

/-- The part of `options` that `saveAsPdf` reads: `options.pdf.mode` and `options.serverUrl`. -/
structure ExportOptions where
  pdfMode : String
  serverUrl : String
  deriving DecidableEq, Repr

/-- The browser environment of an export. The globals `jsPDF` and `svg2pdf` may be undefined;
every call that the source makes inside a `try` block may throw: the serialization of
`getSVGString` (which yields the string or throws), the renderer `svg2pdf`, `doc.save`, and
the request sent by `postAndSave`. Calls outside a `try` block (`alert`, the loading
indicator, `svg.node()`) are taken to return. -/
structure ExportEnv where
  jsPDFDefined : Bool
  svg2pdfDefined : Bool
  svgString : Except String String
  svg2pdfThrows : Bool
  docSaveThrows : Bool
  postThrows : Bool
  now : LocalDate
  svgWidth : Nat
  svgHeight : Nat

/-- The static method `Exporter.isClientSidePdfExportAvailable()`:
`typeof jsPDF !== 'undefined' && typeof svg2pdf !== 'undefined'`. -/
def Exporter.isClientSidePdfExportAvailable (env : ExportEnv) : Bool :=
  env.jsPDFDefined && env.svg2pdfDefined

/-- The static method `Exporter.exportPdfClientSide(svgString, width, height)`: creates the
document, renders the SVG into it, saves it under the export file name and hides the loading
indicator. Using an undefined global throws a `ReferenceError`. The result is what the call
did and whether it returned or threw. -/
def Exporter.exportPdfClientSide (env : ExportEnv) (width height : Nat) :
    Except String Unit × List ExportAction :=
  let t0 := [ExportAction.exportPdfClientSide]
  if !env.jsPDFDefined then (.error "ReferenceError: jsPDF is not defined", t0)
  else
    let t1 := t0 ++ [ExportAction.newJsPDF width height]
    if !env.svg2pdfDefined then (.error "ReferenceError: svg2pdf is not defined", t1)
    else
      let t2 := t1 ++ [ExportAction.svg2pdf]
      if env.svg2pdfThrows then (.error "svg2pdf", t2)
      else
        let t3 := t2 ++ [ExportAction.docSave (Exporter.getExportFileName env.now (some "pdf"))]
        if env.docSaveThrows then (.error "save", t3)
        else (.ok (), t3 ++ [ExportAction.loadingHide])

/-- The static method `Exporter.exportPdfServerSide(svgString, url)`: builds the file name and
posts the SVG to the export server through `postAndSave`; the answer of the server arrives
later, in a callback. -/
def Exporter.exportPdfServerSide (env : ExportEnv) (url : String) :
    Except String Unit × List ExportAction :=
  let filename := Exporter.getExportFileName env.now (some "pdf")
  let t := [ExportAction.exportPdfServerSide, ExportAction.postAndSave url filename]
  if env.postThrows then (.error "XMLHttpRequest", t) else (.ok (), t)

/-- The outer `try` block of `Exporter.saveAsPdf`, from `getSVGString` on: what it did and
whether it completed or threw to the outer `catch`. -/
def Exporter.saveAsPdfBody (env : ExportEnv) (options : ExportOptions) (width height : Nat) :
    Except String Unit × List ExportAction :=
  let t1 := [ExportAction.getSVGString]
  match env.svgString with
  | .error e => (.error e, t1)
  | .ok _ =>
    let fallback := decide (options.pdfMode = "fallback")
    if options.pdfMode = "client" ∨ fallback = true then
      let c := Exporter.exportPdfClientSide env width height
      match c.1 with
      | .ok _ => (.ok (), t1 ++ c.2)
      | .error e =>
        let t2 := t1 ++ c.2 ++ [ExportAction.consoleLog "client side pdf rendering failed!"]
        if fallback = true then
          let s := Exporter.exportPdfServerSide env options.serverUrl
          (s.1, t2 ++ [ExportAction.consoleLog "performing server side fallback."] ++ s.2)
        else (.error e, t2)
    else if options.pdfMode = "server" then
      let s := Exporter.exportPdfServerSide env options.serverUrl
      (s.1, t1 ++ s.2)
    else (.ok (), t1)

/-- The static method `Exporter.saveAsPdf(svg, options)`: the early return of the client mode
without client-side support, then the loading indicator, the sizes, the `try` block and its
`catch`. -/
def Exporter.saveAsPdf (env : ExportEnv) (options : ExportOptions) : List ExportAction :=
  let clientSidePdfExportAvailable := Exporter.isClientSidePdfExportAvailable env
  if options.pdfMode = "client" ∧ clientSidePdfExportAvailable = false then
    [ExportAction.alert "error.jsPDFisNotIncluded"]
  else
    let margin := 20
    let width := env.svgWidth + 2 * margin
    let height := env.svgHeight + 2 * margin
    let body := Exporter.saveAsPdfBody env options width height
    match body.1 with
    | .ok _ => ExportAction.loadingShow :: body.2
    | .error e =>
      ExportAction.loadingShow :: body.2 ++
        [ExportAction.consoleLog e, ExportAction.loadingHide,
          ExportAction.alert "error.pdfExportNotSupported"]

/-- How often the client-side export was invoked. -/
def clientExports (t : List ExportAction) : Nat :=
  t.count ExportAction.exportPdfClientSide

/-- How often the server-side export was requested. -/
def serverExports (t : List ExportAction) : Nat :=
  t.count ExportAction.exportPdfServerSide

/-- A browser with both PDF libraries in which every call succeeds. -/
def sampleExportEnv : ExportEnv :=
  { jsPDFDefined := true, svg2pdfDefined := true, svgString := .ok "<svg></svg>"
    svg2pdfThrows := false, docSaveThrows := false, postThrows := false
    now := sampleDate, svgWidth := 300, svgHeight := 200 }

/-- The export options of the default configuration, for a given PDF mode. -/
def sampleOptions (mode : String) : ExportOptions :=
  { pdfMode := mode, serverUrl := "http://export.highcharts.com" }

/-! ## App: keyboard shortcuts -/

/-- The three node classes of the domain model. -/
inductive NodeKind
  | decision
  | chance
  | terminal
  deriving DecidableEq, Repr

/-- A node of the diagram: its identity and its class. -/
structure DomainNode where
  id : Nat
  kind : NodeKind
  deriving DecidableEq, Repr

/-- The value of `this.selectedObject`: nothing, a node, an edge, or another object (a
floating text). -/
inductive SelectedObject
  | nothing
  | node (n : DomainNode)
  | edge (id : Nat)
  | text (id : Nat)
  deriving DecidableEq, Repr

/-- What the handler reads from `d3.event`: the node name of `srcElement` (`none` when the
event has no source element), the key code and the two modifier keys. -/
structure KeyEvent where
  srcElement : Option String
  keyCode : Nat
  ctrlKey : Bool
  altKey : Bool
  deriving DecidableEq, Repr

/-- The operations the keyboard handler can trigger. -/
inductive KeyAction
  | removeSelectedNodes
  | removeSelectedTexts
  | addDecisionNode (n : DomainNode)
  | addChanceNode (n : DomainNode)
  | addTerminalNode (n : DomainNode)
  | injectDecisionNode (edge : Nat)
  | injectChanceNode (edge : Nat)
  | undo
  | redo
  | pasteToNode (n : DomainNode)
  | cutSelectedNodes
  | copySelectedNodes
  deriving DecidableEq, Repr

/-- The string method `toUpperCase()`, on the letters `a` to `z` (element names consist of
these). -/
def toUpperCase (s : String) : String :=
  String.mk (s.toList.map Char.toUpper)

/-- The guard at the top of the handler:
`d3.event.srcElement && ['INPUT', 'TEXTAREA'].indexOf(d3.event.srcElement.nodeName.toUpperCase()) > -1`. -/
def App.isInputEvent (ev : KeyEvent) : Bool :=
  match ev.srcElement with
  | none => false
  | some nodeName => ["INPUT", "TEXTAREA"].contains (toUpperCase nodeName)

/-- The block `if (d3.event.altKey) { ... }` of the handler: the actions it performs and
whether it ended with `return`. The branch for a node returns; the branch for an edge does
not. -/
def App.altKeyBlock (selectedObject : SelectedObject) (ev : KeyEvent) : List KeyAction × Bool :=
  if ev.altKey then
    match selectedObject with
    | .node selectedNode =>
      if selectedNode.kind = NodeKind.terminal then ([], true)
      else if ev.keyCode = 68 then ([KeyAction.addDecisionNode selectedNode], true)
      else if ev.keyCode = 67 then ([KeyAction.addChanceNode selectedNode], true)
      else if ev.keyCode = 84 then ([KeyAction.addTerminalNode selectedNode], true)
      else ([], true)
    | .edge e =>
      if ev.keyCode = 68 then ([KeyAction.injectDecisionNode e], false)
      else if ev.keyCode = 67 then ([KeyAction.injectChanceNode e], false)
      else ([], false)
    | _ => ([], false)
  else ([], false)

/-- The rest of the handler, after the `altKey` block: undo, redo, paste, cut and copy.
`selectedNodes` is what `this.treeDesigner.getSelectedNodes()` returns at that point. -/
def App.ctrlKeyBlock (selectedNodes : List DomainNode) (ev : KeyEvent) : List KeyAction :=
  if ev.keyCode = 90 then [KeyAction.undo]
  else if ev.keyCode = 89 then [KeyAction.redo]
  else if ev.keyCode = 86 then
    match selectedNodes with
    | [selectedNode] =>
      if selectedNode.kind = NodeKind.terminal then [] else [KeyAction.pasteToNode selectedNode]
    | _ => []
  else if selectedNodes.length = 0 then []
  else if ev.keyCode = 88 then [KeyAction.cutSelectedNodes]
  else if ev.keyCode = 67 then [KeyAction.copySelectedNodes]
  else []

/-- The `keyup` handler installed by `App.initKeyCodes`: the actions it performs, in order,
for the selected object, the selected nodes and the event. -/
def App.onKeyUp (selectedObject : SelectedObject) (selectedNodes : List DomainNode)
    (ev : KeyEvent) : List KeyAction :=
  if App.isInputEvent ev then []
  else if ev.keyCode = 46 then [KeyAction.removeSelectedNodes, KeyAction.removeSelectedTexts]
  else if !ev.ctrlKey then []
  else
    let alt := App.altKeyBlock selectedObject ev
    if alt.2 then alt.1 else alt.1 ++ App.ctrlKeyBlock selectedNodes ev

/-- A chance node. -/
def sampleNode : DomainNode :=
  { id := 1, kind := NodeKind.chance }

/-! ## App: opening a diagram -/

/-- The properties of a parsed diagram file that `openDiagram` reads. A property that is
absent is `none`; the payloads (`format`, `treeDesigner`, `sensitivityAnalysis`, `data`)
are kept by identity only. -/
structure DiagramData where
  SilverDecisions : Option String
  lng : Option String
  rule : Option String
  format : Option Nat
  treeDesigner : Option Nat
  title : Option String
  description : Option String
  sensitivityAnalysis : Option Nat
  data : Option Nat
  deriving DecidableEq, Repr

/-- A value that `JSON.parse` can yield, or that a caller passes instead of a string:
`null`, a primitive (number, boolean, string), or an object. -/
inductive JsonValue
  | null
  | primitive
  | object (d : DiagramData)
  deriving DecidableEq, Repr

/-- The argument `diagramData` of `openDiagram`: the text of a file, or a value. -/
inductive DiagramInput
  | text (s : String)
  | value (v : JsonValue)
  deriving DecidableEq, Repr

/-- Where `dataModelObject` comes from: `diagramData.data`, or, for files older than
version 0.7.0, the properties `code`, `expressionScope`, `trees`, `texts` of the file. -/
inductive DataModelSource
  | data (payload : Option Nat)
  | legacyFields
  deriving DecidableEq, Repr

/-- What the application does while opening a diagram, in order. -/
inductive AppAction
  | dataModelClear
  | setDiagramTitle (title : String)
  | setDiagramDescription (description : String)
  | treeDesignerSetConfig (saved : Option Nat)
  | onSelectionCleared
  | sensitivityAnalysisDialogClear
  | alert (key : String)
  | logError (tag : String)
  | setConfig
  | dataModelLoad (source : DataModelSource)
  | loadSavedParamValues (saved : Nat)
  | updateNumberFormats (format : Option Nat)
  | setObjectiveRule (rule : Option String)
  | updateView
  deriving DecidableEq, Repr

/-- The part of `this.config` that `openDiagram` writes. -/
structure DiagramConfig where
  lng : String
  rule : Option String
  format : Option Nat
  deriving DecidableEq, Repr

/-- How the promise of `setObjectiveRule` settles. -/
inductive RuleOutcome
  | resolved
  | rejected
  | pending
  deriving DecidableEq, Repr

/-- What the application code outside `openDiagram` does. `jsonParse` is `JSON.parse` with
the reviver of the expression engine; `isValidVersionString` and `compareVersionNumbers`
are the functions of `Utils` (package `sd-utils`, not among the sources) and `version` is
`App.version`; `isRuleName` is the check of the computations manager. `throws` says which
calls made inside a `try` block (or inside the promise chain) throw, and
`objectiveRule` how the promise of `setObjectiveRule` settles. -/
structure AppEnv where
  version : String
  jsonParse : String → Except String JsonValue
  isValidVersionString : String → Bool
  compareVersionNumbers : String → String → Int
  isRuleName : String → Bool
  throws : AppAction → Bool
  objectiveRule : RuleOutcome

/-- How a call of `openDiagram` ends: with a promise resolved with the list of errors, with a
promise that is still pending, or with an exception (reading a property of `null`). -/
inductive OpenOutcome
  | resolved
  | pending
  | thrown
  deriving DecidableEq, Repr

/-- The result of `openDiagram`: how it ended, the content of the array `errors`, the actions
performed, and the configuration it leaves. -/
structure OpenResult where
  outcome : OpenOutcome
  errors : List String
  actions : List AppAction
  config : DiagramConfig
  deriving DecidableEq, Repr

/-- The method `App.clear()`: clears the data model, the title and the description, resets
the configuration of the tree designer, and clears the selection and the sensitivity
analysis dialog. -/
def App.clear : List AppAction :=
  [AppAction.dataModelClear, AppAction.setDiagramTitle "", AppAction.setDiagramDescription "",
    AppAction.treeDesignerSetConfig none, AppAction.onSelectionCleared,
    AppAction.sensitivityAnalysisDialogClear]

/-- Whether a string property is truthy: present and not empty. -/
def truthyString : Option String → Bool
  | none => false
  | some s => s != ""

/-- Runs calls one after the other inside a `try` block: the calls made, up to and including
the first that throws, and whether one threw. -/
def runGuarded (env : AppEnv) : List AppAction → List AppAction × Bool
  | [] => ([], false)
  | a :: rest =>
    if env.throws a then ([a], true)
    else ((runGuarded env rest).1.cons a, (runGuarded env rest).2)

/-- The version check of `openDiagram` (the `if`/`else` on `Utils.isValidVersionString`):
the error keys it pushes, and whether the file is older than version 0.7.0. -/
def App.checkVersion (env : AppEnv) (fileVersion : String) : List String × Bool :=
  if !env.isValidVersionString fileVersion then (["error.incorrectVersionFormat"], false)
  else
    ((if env.compareVersionNumbers fileVersion env.version > 0 then
        ["error.fileVersionNewerThanApplicationVersion"] else []),
      decide (env.compareVersionNumbers fileVersion "0.7.0" < 0))

/-- The assignments to `this.config` at the start of the first `try` block of `openDiagram`. -/
def App.updateConfig (env : AppEnv) (config : DiagramConfig) (d : DiagramData) : DiagramConfig :=
  let c1 := if truthyString d.lng then { config with lng := d.lng.getD "" } else config
  let c2 :=
    if truthyString d.rule then
      (if env.isRuleName (d.rule.getD "") then { c1 with rule := d.rule }
       else { c1 with rule := none })
    else c1
  if d.format.isSome then { c2 with format := d.format } else c2

/-- The calls of the first `try` block of `openDiagram` after the configuration is updated,
in order. -/
def App.loadCalls (d : DiagramData) (source : DataModelSource) : List AppAction :=
  [AppAction.setConfig, AppAction.dataModelLoad source] ++
  (if d.treeDesigner.isSome then [AppAction.treeDesignerSetConfig d.treeDesigner] else []) ++
  [AppAction.setDiagramTitle (if truthyString d.title then d.title.getD "" else ""),
    AppAction.setDiagramDescription
      (if truthyString d.description then d.description.getD "" else "")] ++
  (match d.sensitivityAnalysis with
   | some saved => [AppAction.loadSavedParamValues saved]
   | none => [])

/-- The end of `openDiagram`: the promise chain on `setObjectiveRule`, with its two `catch`
handlers around `updateView`. Returns how the call ends, the errors pushed and the actions. -/
def App.drawDiagram (env : AppEnv) (config : DiagramConfig) :
    OpenOutcome × List String × List AppAction :=
  let start := [AppAction.setObjectiveRule config.rule]
  let failure := [AppAction.logError "diagramDrawingFailure",
    AppAction.alert "error.diagramDrawingFailure"] ++ App.clear
  match env.objectiveRule with
  | .pending => (OpenOutcome.pending, [], start)
  | .resolved =>
    if env.throws AppAction.updateView then
      (OpenOutcome.resolved, ["error.diagramDrawingFailure"],
        start ++ [AppAction.updateView] ++ failure)
    else (OpenOutcome.resolved, [], start ++ [AppAction.updateView])
  | .rejected =>
    if env.throws AppAction.updateView then
      (OpenOutcome.resolved, ["error.diagramDrawingFailure", "error.diagramDrawingFailure"],
        start ++ failure ++ [AppAction.updateView] ++ failure)
    else
      (OpenOutcome.resolved, ["error.diagramDrawingFailure"],
        start ++ failure ++ [AppAction.updateView])

/-- The first statement of `openDiagram`: a string argument goes through `JSON.parse`, which
may throw; any other argument is used as it is. -/
def App.parseDiagram (env : AppEnv) : DiagramInput → Except String JsonValue
  | .text s => env.jsonParse s
  | .value v => .ok v

/-- The part of `openDiagram` from the second `try` block on: `updateNumberFormats`, with
its `catch` (which deletes `config.format`, applies the configuration and updates the
formats again), and then the drawing. `errors` and `actions` are what came before. -/
def App.finishOpening (env : AppEnv) (config : DiagramConfig) (errors : List String)
    (actions : List AppAction) : OpenResult :=
  let actions2 := actions ++ [AppAction.updateNumberFormats config.format]
  let formatFailed := env.throws (AppAction.updateNumberFormats config.format)
  let errors3 := if formatFailed then errors ++ ["error.incorrectNumberFormatOptions"] else errors
  let actions3 :=
    if formatFailed then
      actions2 ++ [AppAction.logError "incorrectNumberFormatOptions",
        AppAction.alert "error.incorrectNumberFormatOptions", AppAction.setConfig,
        AppAction.updateNumberFormats none]
    else actions2
  let config3 := if formatFailed then { config with format := none } else config
  let drawn := App.drawDiagram env config3
  { outcome := drawn.1, errors := errors3 ++ drawn.2.1, actions := actions3 ++ drawn.2.2
    config := config3 }

/-- The part of `openDiagram` from the first `try` block on: the configuration is updated
and the file is loaded; when a call throws, the `catch` reports `error.malformedData`,
clears the application and returns. `errors` and `actions` are what came before. -/
def App.loadDiagram (env : AppEnv) (config : DiagramConfig) (d : DiagramData)
    (source : DataModelSource) (errors : List String) (actions : List AppAction) : OpenResult :=
  let config1 := App.updateConfig env config d
  let loaded := runGuarded env (App.loadCalls d source)
  if loaded.2 then
    { outcome := OpenOutcome.resolved, errors := errors ++ ["error.malformedData"]
      actions := actions ++ loaded.1 ++ [AppAction.alert "error.malformedData"] ++
        App.clear ++ [AppAction.logError "malformedData"]
      config := config1 }
  else App.finishOpening env config1 errors (actions ++ loaded.1)

/-- The method `App.openDiagram(diagramData)`: parsing, `clear()`, the check for the
`SilverDecisions` property, the version check, and then the loading. Reading
`diagramData.data` when the parsed value is `null` throws. -/
def App.openDiagram (env : AppEnv) (config : DiagramConfig) (diagramData : DiagramInput) :
    OpenResult :=
  match App.parseDiagram env diagramData with
  | .error _ =>
    { outcome := OpenOutcome.resolved, errors := ["error.jsonParse"]
      actions := [AppAction.alert "error.jsonParse", AppAction.logError "jsonParse"]
      config := config }
  | .ok JsonValue.null =>
    { outcome := OpenOutcome.thrown, errors := [], actions := [], config := config }
  | .ok JsonValue.primitive =>
    { outcome := OpenOutcome.resolved, errors := ["error.notSilverDecisionsFile"]
      actions := App.clear ++ [AppAction.alert "error.notSilverDecisionsFile"]
      config := config }
  | .ok (JsonValue.object d) =>
    if !truthyString d.SilverDecisions then
      { outcome := OpenOutcome.resolved, errors := ["error.notSilverDecisionsFile"]
        actions := App.clear ++ [AppAction.alert "error.notSilverDecisionsFile"]
        config := config }
    else
      let checked := App.checkVersion env (d.SilverDecisions.getD "")
      let source := if checked.2 then DataModelSource.legacyFields else DataModelSource.data d.data
      App.loadDiagram env config d source checked.1
        (App.clear ++ checked.1.map AppAction.alert)

/-- How often the data model was cleared. -/
def dataModelClears (t : List AppAction) : Nat :=
  t.count AppAction.dataModelClear

/-- An environment in which the application has version 1.0.0, a version string is valid
when it has the form of three dot-separated parts known to the sample (`0.6.0`, `1.0.0`,
`2.0.0`), versions compare by their first character, the parser accepts only the text
`null`, and no call throws. -/
def sampleAppEnv : AppEnv :=
  { version := "1.0.0"
    jsonParse := fun s => if s = "null" then .ok JsonValue.null else .error "SyntaxError"
    isValidVersionString := fun v => ["0.6.0", "1.0.0", "2.0.0"].contains v
    compareVersionNumbers := fun a b => (a.toList.headD '0').toNat - (b.toList.headD '0').toNat
    isRuleName := fun _ => true
    throws := fun _ => false
    objectiveRule := RuleOutcome.resolved }

/-- The configuration of a newly started application. -/
def sampleConfig : DiagramConfig :=
  { lng := "en", rule := some "expected-value-maximization", format := none }

/-- A diagram file of the given version with a title and nothing else. -/
def sampleDiagram (version : Option String) : DiagramData :=
  { SilverDecisions := version, lng := none, rule := none, format := none, treeDesigner := none
    title := some "Tree", description := none, sensitivityAnalysis := none, data := some 1 }

/-! ## Theorems -/

theorem flagWrites_append (a b : List Event) :
    flagWrites (a ++ b) = flagWrites a ++ flagWrites b := by
  simp [flagWrites, List.filterMap_append]

theorem recordReads_append (a b : List Event) :
    recordReads (a ++ b) = recordReads a ++ recordReads b := by
  simp [recordReads, List.filterMap_append]

theorem notifications_append (a b : List Event) :
    notifications (a ++ b) = notifications a ++ notifications b := by
  simp [notifications, List.filter_append]

theorem foldl_emit {σ : Type} (f : ListenerId → Event) (ls : List ListenerId) (w : World σ) :
    ls.foldl (fun acc l => acc.emit (f l)) w
      = { store := w.store, trace := w.trace ++ ls.map f } := by
  induction ls generalizing w with
  | nil => simp
  | cons l t ih =>
    simp only [List.foldl_cons, ih]
    simp [World.emit]

theorem foldl_registerJobExecutionListener {σ : Type} (ls : List ListenerId)
    (m : JobsManager σ) :
    ls.foldl JobsManager.registerJobExecutionListener m
      = { m with jobExecutionListeners := m.jobExecutionListeners ++ ls } := by
  induction ls generalizing m with
  | nil => simp
  | cons l t ih => simp [ih, JobsManager.registerJobExecutionListener]

theorem notifications_map_before (ls : List ListenerId) (e : JobExecution) :
    notifications (ls.map (fun l => Event.listenerBeforeJob l e))
      = ls.map (fun l => Event.listenerBeforeJob l e) := by
  induction ls with
  | nil => rfl
  | cons l t ih => simp_all [notifications]

theorem notifications_map_after (ls : List ListenerId) (e : JobExecution) :
    notifications (ls.map (fun l => Event.listenerAfterJob l e))
      = ls.map (fun l => Event.listenerAfterJob l e) := by
  induction ls with
  | nil => rfl
  | cons l t ih => simp_all [notifications]

theorem beforeJob_eq {σ : Type} (m : JobsManager σ) (e : JobExecution) (w : World σ) :
    m.beforeJob e w = { store := w.store, trace := (w.trace ++
      Event.logDebug (LogMessage.beforeJob m.useWorker e) ::
        m.jobExecutionListeners.map (fun l => Event.listenerBeforeJob l e)) } := by
  unfold JobsManager.beforeJob
  rw [foldl_emit]
  simp [World.emit]

theorem afterJob_eq {σ : Type} (m : JobsManager σ) (e : JobExecution) (w : World σ) :
    m.afterJob e w = { store := w.store, trace := (w.trace ++
      Event.logDebug (LogMessage.afterJob m.useWorker e) ::
        m.jobExecutionListeners.map (fun l => Event.listenerAfterJob l e)) } := by
  unfold JobsManager.afterJob
  rw [foldl_emit]
  simp [World.emit]

theorem notifications_beforeJob {σ : Type} (m : JobsManager σ) (e : JobExecution)
    (w : World σ) :
    notifications (m.beforeJob e w).trace = notifications w.trace ++
      m.jobExecutionListeners.map (fun l => Event.listenerBeforeJob l e) := by
  rw [beforeJob_eq]
  simp only [notifications_append]
  rw [show (Event.logDebug (LogMessage.beforeJob m.useWorker e) ::
      m.jobExecutionListeners.map (fun l => Event.listenerBeforeJob l e))
      = [Event.logDebug (LogMessage.beforeJob m.useWorker e)] ++
        m.jobExecutionListeners.map (fun l => Event.listenerBeforeJob l e) from rfl,
    notifications_append, notifications_map_before]
  simp [notifications]

theorem notifications_afterJob {σ : Type} (m : JobsManager σ) (e : JobExecution)
    (w : World σ) :
    notifications (m.afterJob e w).trace = notifications w.trace ++
      m.jobExecutionListeners.map (fun l => Event.listenerAfterJob l e) := by
  rw [afterJob_eq]
  simp only [notifications_append]
  rw [show (Event.logDebug (LogMessage.afterJob m.useWorker e) ::
      m.jobExecutionListeners.map (fun l => Event.listenerAfterJob l e))
      = [Event.logDebug (LogMessage.afterJob m.useWorker e)] ++
        m.jobExecutionListeners.map (fun l => Event.listenerAfterJob l e) from rfl,
    notifications_append, notifications_map_after]
  simp [notifications]

/-- What the constructor yields when `registerJobs` returned: the fields of the manager and
the world it leaves. -/
theorem constructor_ok {σ : Type} (imports : Imports σ) (ev : ExpressionsEvaluator)
    (orm : ObjectiveRulesManager) (workerUrl : Option String) (m : JobsManager σ) (w : World σ)
    (h : JobsManager.constructor imports ev orm workerUrl = (.ok m, w)) :
    (imports.idbOps.registerJob imports.sensitivityAnalysisJob imports.idbStore).1 = .ok () ∧
    m.useWorker = truthy workerUrl ∧
    m.jobRepository = { kind := RepositoryKind.IdbJobRepository, ops := imports.idbOps } ∧
    m.expressionEngine = ev.expressionEngine ∧
    m.jobExecutionListeners = [] ∧
    m.jobLauncher = some (JobLauncher.mk m.jobRepository m.jobWorker ev.expressionEngine) ∧
    w.store = (imports.idbOps.registerJob imports.sensitivityAnalysisJob imports.idbStore).2 ∧
    ((truthy workerUrl = false ∧ m.jobWorker = none ∧
        w.trace = [Event.construct Allocation.IdbJobRepository,
          Event.construct Allocation.SensitivityAnalysisJob,
          Event.registerJob imports.sensitivityAnalysisJob.name,
          Event.registerExecutionListener imports.sensitivityAnalysisJob.name,
          Event.construct Allocation.JobLauncher]) ∨
      (∃ url jw, workerUrl = some url ∧ truthy workerUrl = true ∧ m.jobWorker = some jw ∧
        jw.url = url ∧
        w.trace = [Event.construct Allocation.IdbJobRepository,
          Event.construct Allocation.SensitivityAnalysisJob,
          Event.registerJob imports.sensitivityAnalysisJob.name,
          Event.registerExecutionListener imports.sensitivityAnalysisJob.name,
          Event.construct (Allocation.JobWorker url),
          Event.construct Allocation.JobLauncher])) := by
  unfold JobsManager.constructor at h
  simp only [JobsManager.registerJobs, JobsManager.registerJob, World.emit] at h
  rcases hreg : (imports.idbOps.registerJob imports.sensitivityAnalysisJob imports.idbStore).1
    with err | u
  · simp [hreg] at h
  · simp only [hreg] at h
    cases workerUrl with
    | none =>
      simp only [Prod.mk.injEq, Except.ok.injEq] at h
      obtain ⟨hm, hw⟩ := h
      subst hm hw
      simp [truthy]
    | some url =>
      by_cases ht : truthy (some url) = true
      · simp only [ht, if_true, Prod.mk.injEq, Except.ok.injEq] at h
        obtain ⟨hm, hw⟩ := h
        subst hm hw
        simp [ht, JobsManager.initWorker, JobWorker.addListener, JobWorker.new]
      · simp only [ht, Prod.mk.injEq, Except.ok.injEq] at h
        obtain ⟨hm, hw⟩ := h
        subst hm hw
        simp [ht]

/-- The trace written by `stop`, in terms of what the lookup and the flag write yield. -/
theorem stop_flagWrites {σ : Type} (m : JobsManager σ) (x : ExecutionOrId) (w : World σ) :
    flagWrites (m.stop x w).2.trace = flagWrites w.trace ++
      (match (m.jobRepository.ops.getJobExecutionById (resolveId x) w.store).1 with
       | .resolved (some e) => if e.isRunning then [(e.id, JobExecutionFlag.STOP)] else []
       | _ => []) := by
  unfold JobsManager.stop
  rcases h : (m.jobRepository.ops.getJobExecutionById (resolveId x) w.store).1 with v | err | _
  · cases v with
    | none => simp [h, World.emit, flagWrites_append, flagWrites]
    | some e =>
      by_cases hr : e.isRunning = true
      · simp only [h, hr]
        rcases hs : (m.jobRepository.ops.saveJobExecutionFlag e.id JobExecutionFlag.STOP
          (m.jobRepository.ops.getJobExecutionById (resolveId x) w.store).2).1 with u | err | _ <;>
          simp [hs, flagWrites_append, flagWrites]
      · simp [h, hr, World.emit, flagWrites_append, flagWrites]
  · simp [h, flagWrites_append, flagWrites]
  · simp [h, flagWrites_append, flagWrites]

/-- C1: when the lookup finds an execution that is not running, `stop` is a no-op on the
repository: the store is the one the lookup left, the only events added are the lookup and
the warning line, and no `saveJobExecutionFlag` call is added (first part, for an argument
passed as id or as object). Conversely, whenever `stop` adds a flag write, the lookup found
an execution with status RUNNING and the single write added is `(its id, STOP)`. -/
theorem stop_not_running_is_noop {σ : Type} (m : JobsManager σ) (x : ExecutionOrId)
    (w : World σ) :
    (∀ (e : JobExecution) (s1 : σ),
      m.jobRepository.ops.getJobExecutionById (resolveId x) w.store = (.resolved (some e), s1) →
      e.isRunning = false →
        (m.stop x w).2.store = s1 ∧
        (m.stop x w).2.trace = w.trace ++ [Event.getJobExecutionById (resolveId x),
          Event.logWarn (LogMessage.executionNotRunning e.status e.endTime)] ∧
        flagWrites (m.stop x w).2.trace = flagWrites w.trace) ∧
    (flagWrites (m.stop x w).2.trace ≠ flagWrites w.trace →
      ∃ e : JobExecution,
        (m.jobRepository.ops.getJobExecutionById (resolveId x) w.store).1 = .resolved (some e) ∧
        e.status = JobStatus.RUNNING ∧
        flagWrites (m.stop x w).2.trace = flagWrites w.trace ++ [(e.id, JobExecutionFlag.STOP)]) := by
  constructor
  · intro e s1 hfound hnot
    have hw := stop_flagWrites m x w
    simp only [hfound, hnot] at hw
    refine ⟨?_, ?_, by simpa using hw⟩
    · simp [JobsManager.stop, hfound, hnot, World.emit]
    · simp [JobsManager.stop, hfound, hnot, World.emit]
  · intro hne
    have hw := stop_flagWrites m x w
    rcases h : (m.jobRepository.ops.getJobExecutionById (resolveId x) w.store).1 with v | err | _
    · cases v with
      | none => rw [h] at hw; simp at hw; exact absurd hw hne
      | some e =>
        by_cases hr : e.isRunning = true
        · refine ⟨e, rfl, ?_, ?_⟩
          · simpa [JobExecution.isRunning] using hr
          · rw [h] at hw; simpa [hr] using hw
        · rw [h] at hw; simp [hr] at hw; exact absurd hw hne
    · rw [h] at hw; simp at hw; exact absurd hw hne
    · rw [h] at hw; simp at hw; exact absurd hw hne

/-- C1, on the sample store: stopping the finished execution `e1` leaves the store and the
flag writes as they were, and the flag write made when stopping `e2` is for a RUNNING
execution. -/
theorem stop_not_running_is_noop_witness :
    (simpleJobRepository.getJobExecutionById (resolveId (ExecutionOrId.id "e1")) sampleWorld.store
        = (.resolved (some finishedExecution), sampleStore) ∧
      finishedExecution.isRunning = false ∧
      flagWrites (sampleManager.stop (ExecutionOrId.execution runningExecution) sampleWorld).2.trace
        ≠ flagWrites sampleWorld.trace) ∧
    ((sampleManager.stop (ExecutionOrId.id "e1") sampleWorld).2.store = sampleStore ∧
      (sampleManager.stop (ExecutionOrId.id "e1") sampleWorld).2.trace = sampleWorld.trace ++
        [Event.getJobExecutionById (resolveId (ExecutionOrId.id "e1")),
          Event.logWarn (LogMessage.executionNotRunning finishedExecution.status
            finishedExecution.endTime)] ∧
      flagWrites (sampleManager.stop (ExecutionOrId.id "e1") sampleWorld).2.trace
        = flagWrites sampleWorld.trace) ∧
    (∃ e : JobExecution,
      (sampleManager.jobRepository.ops.getJobExecutionById
          (resolveId (ExecutionOrId.execution runningExecution)) sampleWorld.store).1
        = .resolved (some e) ∧
      e.status = JobStatus.RUNNING ∧
      flagWrites (sampleManager.stop (ExecutionOrId.execution runningExecution) sampleWorld).2.trace
        = flagWrites sampleWorld.trace ++ [(e.id, JobExecutionFlag.STOP)]) :=
  ⟨⟨by rfl, by rfl, by decide⟩,
    (stop_not_running_is_noop sampleManager (ExecutionOrId.id "e1") sampleWorld).1
      finishedExecution sampleStore (by rfl) (by rfl),
    (stop_not_running_is_noop sampleManager (ExecutionOrId.execution runningExecution)
      sampleWorld).2 (by decide)⟩

/-- C2: when the lookup finds a RUNNING execution `e`, `stop` calls
`saveJobExecutionFlag(e.id, STOP)` exactly once (it is the only event after the lookup, and
the only flag write added), the store is the one that write left, and the returned promise
follows the write: it resolves, with `e` itself (still RUNNING, so without waiting for
STOPPED), exactly when the write resolves, rejects with the same error when the write
rejects, and stays pending while the write is pending. -/
theorem stop_running_flags_once {σ : Type} (m : JobsManager σ) (x : ExecutionOrId)
    (w : World σ) (e : JobExecution) (s1 : σ)
    (hfound : m.jobRepository.ops.getJobExecutionById (resolveId x) w.store
      = (.resolved (some e), s1))
    (hrun : e.status = JobStatus.RUNNING) :
    (m.stop x w).2.trace = w.trace ++ [Event.getJobExecutionById (resolveId x),
      Event.saveJobExecutionFlag e.id JobExecutionFlag.STOP] ∧
    flagWrites (m.stop x w).2.trace = flagWrites w.trace ++ [(e.id, JobExecutionFlag.STOP)] ∧
    (m.stop x w).2.store
      = (m.jobRepository.ops.saveJobExecutionFlag e.id JobExecutionFlag.STOP s1).2 ∧
    ((∃ u, (m.jobRepository.ops.saveJobExecutionFlag e.id JobExecutionFlag.STOP s1).1
        = .resolved u) ↔ (m.stop x w).1 = .resolved (some e)) ∧
    (∀ v, (m.stop x w).1 = .resolved v → v = some e ∧ e.isRunning = true) ∧
    (∀ err, (m.jobRepository.ops.saveJobExecutionFlag e.id JobExecutionFlag.STOP s1).1
        = .rejected err → (m.stop x w).1 = .rejected err) ∧
    ((m.jobRepository.ops.saveJobExecutionFlag e.id JobExecutionFlag.STOP s1).1 = .pending →
      (m.stop x w).1 = .pending) := by
  have hr : e.isRunning = true := by simp [JobExecution.isRunning, hrun]
  have hw := stop_flagWrites m x w
  simp only [hfound, hr] at hw
  refine ⟨?_, by simpa using hw, ?_, ?_, ?_, ?_, ?_⟩ <;>
    rcases hs : (m.jobRepository.ops.saveJobExecutionFlag e.id JobExecutionFlag.STOP s1).1
      with u | err | _ <;>
    simp [JobsManager.stop, hfound, hr, hs]

/-- C2, on the sample store: stopping the running execution `e2`, passed as an object. -/
theorem stop_running_flags_once_witness :
    (simpleJobRepository.getJobExecutionById
        (resolveId (ExecutionOrId.execution runningExecution)) sampleWorld.store
        = (.resolved (some runningExecution), sampleStore) ∧
      runningExecution.status = JobStatus.RUNNING) ∧
    (sampleManager.stop (ExecutionOrId.execution runningExecution) sampleWorld).1
      = .resolved (some runningExecution) ∧
    (sampleManager.stop (ExecutionOrId.execution runningExecution) sampleWorld).2.trace
      = [Event.getJobExecutionById (IdValue.str "e2"),
          Event.saveJobExecutionFlag (IdValue.str "e2") JobExecutionFlag.STOP] :=
  ⟨⟨by rfl, by rfl⟩,
    (stop_running_flags_once sampleManager (ExecutionOrId.execution runningExecution) sampleWorld
      runningExecution sampleStore (by rfl) (by rfl)).2.2.2.1.1 ⟨(), by rfl⟩,
    (stop_running_flags_once sampleManager (ExecutionOrId.execution runningExecution) sampleWorld
      runningExecution sampleStore (by rfl) (by rfl)).1⟩

/-- C3 fails on the sample store: for the finished execution `e1`, `stop` resolves with
exactly the record that the lookup resolved with, which is also what it does after flagging
the running execution `e2`; the value carries nothing added by `stop`, and the warning
exists only as the `log.warn` line in the trace. -/
theorem stop_warning_indicator_counterexample :
    finishedExecution.isRunning = false ∧
    (sampleManager.stop (ExecutionOrId.id "e1") sampleWorld).1
      = .resolved (some finishedExecution) ∧
    (sampleManager.stop (ExecutionOrId.id "e1") sampleWorld).1
      = (simpleJobRepository.getJobExecutionById (IdValue.str "e1") sampleStore).1 ∧
    (sampleManager.stop (ExecutionOrId.id "e2") sampleWorld).1
      = (simpleJobRepository.getJobExecutionById (IdValue.str "e2") sampleStore).1 ∧
    flagWrites (sampleManager.stop (ExecutionOrId.id "e2") sampleWorld).2.trace
      = [(IdValue.str "e2", JobExecutionFlag.STOP)] ∧
    (sampleManager.stop (ExecutionOrId.id "e1") sampleWorld).2.trace
      = [Event.getJobExecutionById (IdValue.str "e1"),
          Event.logWarn (LogMessage.executionNotRunning JobStatus.FINISHED (some 7))] := by
  refine ⟨by rfl, by rfl, by rfl, by rfl, by rfl, by rfl⟩

/-- C3, amended: for every found execution that is not running, the promise returned by
`stop` resolves with that execution itself, exactly the value the lookup resolved with (the
same value `stop` resolves with after a flag write, which is again the found execution); the
warning is one `log.warn` line carrying the status and end time. -/
theorem stop_not_running_resolves_with_execution {σ : Type} (m : JobsManager σ)
    (x : ExecutionOrId) (w : World σ) (e : JobExecution) (s1 : σ)
    (hfound : m.jobRepository.ops.getJobExecutionById (resolveId x) w.store
      = (.resolved (some e), s1))
    (hnot : e.isRunning = false) :
    (m.stop x w).1 = .resolved (some e) ∧
    (m.stop x w).1 = (m.jobRepository.ops.getJobExecutionById (resolveId x) w.store).1 ∧
    (m.stop x w).2.trace = w.trace ++ [Event.getJobExecutionById (resolveId x),
      Event.logWarn (LogMessage.executionNotRunning e.status e.endTime)] := by
  simp [JobsManager.stop, hfound, hnot, World.emit]

/-- C3, amended, on the sample store: stopping the finished execution passed as an object. -/
theorem stop_not_running_resolves_with_execution_witness :
    (simpleJobRepository.getJobExecutionById
        (resolveId (ExecutionOrId.execution finishedExecution)) sampleWorld.store
        = (.resolved (some finishedExecution), sampleStore) ∧
      finishedExecution.isRunning = false) ∧
    (sampleManager.stop (ExecutionOrId.execution finishedExecution) sampleWorld).1
      = .resolved (some finishedExecution) :=
  ⟨⟨by rfl, by rfl⟩,
    (stop_not_running_resolves_with_execution sampleManager
      (ExecutionOrId.execution finishedExecution) sampleWorld finishedExecution sampleStore
      (by rfl) (by rfl)).1⟩

/-- C4 fails on the sample store: no execution has the id `missing`, the lookup resolves
with nothing, and `stop` resolves with `null` instead of rejecting. -/
theorem stop_unknown_id_counterexample :
    (simpleJobRepository.getJobExecutionById (IdValue.str "missing") sampleStore).1
      = .resolved none ∧
    (sampleManager.stop (ExecutionOrId.id "missing") sampleWorld).1 = .resolved none ∧
    ¬ ∃ err, (sampleManager.stop (ExecutionOrId.id "missing") sampleWorld).1 = .rejected err := by
  refine ⟨by rfl, by rfl, ?_⟩
  rintro ⟨err, h⟩
  have h2 : (sampleManager.stop (ExecutionOrId.id "missing") sampleWorld).1
      = Settled.resolved none := by rfl
  rw [h2] at h
  cases h

/-- C4, amended: for every argument for which the lookup resolves with nothing, `stop` logs
one error line, resolves with `null`, and writes no flag: the store is the one the lookup
left and no `saveJobExecutionFlag` call is added. -/
theorem stop_unknown_id_resolves_null {σ : Type} (m : JobsManager σ) (x : ExecutionOrId)
    (w : World σ) (s1 : σ)
    (hmissing : m.jobRepository.ops.getJobExecutionById (resolveId x) w.store
      = (.resolved none, s1)) :
    (m.stop x w).1 = .resolved none ∧
    (m.stop x w).2.store = s1 ∧
    (m.stop x w).2.trace = w.trace ++ [Event.getJobExecutionById (resolveId x),
      Event.logError (LogMessage.executionNotFound x)] ∧
    flagWrites (m.stop x w).2.trace = flagWrites w.trace := by
  have hw := stop_flagWrites m x w
  simp only [hmissing] at hw
  refine ⟨?_, ?_, ?_, by simpa using hw⟩ <;>
    simp [JobsManager.stop, hmissing, World.emit]

/-- C4, amended, on the sample store: an execution object whose id is not in the store. -/
theorem stop_unknown_id_resolves_null_witness :
    simpleJobRepository.getJobExecutionById
        (resolveId (ExecutionOrId.execution { runningExecution with id := IdValue.str "gone" }))
        sampleWorld.store = (.resolved none, sampleStore) ∧
    (sampleManager.stop
        (ExecutionOrId.execution { runningExecution with id := IdValue.str "gone" })
        sampleWorld).1 = .resolved none ∧
    flagWrites (sampleManager.stop
        (ExecutionOrId.execution { runningExecution with id := IdValue.str "gone" })
        sampleWorld).2.trace = flagWrites sampleWorld.trace :=
  ⟨by rfl,
    (stop_unknown_id_resolves_null sampleManager
      (ExecutionOrId.execution { runningExecution with id := IdValue.str "gone" })
      sampleWorld sampleStore (by rfl)).1,
    (stop_unknown_id_resolves_null sampleManager
      (ExecutionOrId.execution { runningExecution with id := IdValue.str "gone" })
      sampleWorld sampleStore (by rfl)).2.2.2⟩

/-- Without a worker, `getLastJobExecution` on an instance of `JobParameters` is the
repository call and nothing else. -/
theorem getLastJobExecution_without_worker {σ : Type} (m : JobsManager σ) (jobName : String)
    (p : JobParameters) (w : World σ) (hlocal : m.useWorker = false) :
    (m.getLastJobExecution jobName (JobParametersArg.params p) w).1
      = .promise (m.jobRepository.ops.getLastJobExecution jobName p w.store).1 ∧
    (m.getLastJobExecution jobName (JobParametersArg.params p) w).2.store
      = (m.jobRepository.ops.getLastJobExecution jobName p w.store).2 ∧
    (m.getLastJobExecution jobName (JobParametersArg.params p) w).2.trace
      = w.trace ++ [Event.getLastJobExecution jobName p] := by
  simp [JobsManager.getLastJobExecution, hlocal]

/-- With a worker, `getLastJobExecution` hands back the field `jobWorker` and calls
nothing, whatever the arguments. -/
theorem getLastJobExecution_with_worker {σ : Type} (m : JobsManager σ) (jobName : String)
    (p : JobParametersArg) (w : World σ) (hworker : m.useWorker = true) :
    m.getLastJobExecution jobName p w = (.jobWorker m.jobWorker, w) := by
  simp [JobsManager.getLastJobExecution, hworker]

/-- C5, the failing input: the manager built for the worker URL `worker.js`, asked for the
last execution of `sensitivity-analysis` with the parameters of the running sample
execution. The repository would resolve with that execution, but the method hands back the
value of the field `jobWorker` (the worker object) and makes no repository call. -/
theorem getLastJobExecution_with_worker_returns_worker :
    (JobsManager.constructor sampleImports { expressionEngine := sampleEngine }
        { ruleName := "expected-value-maximization" } (some "worker.js")).1
      = .ok sampleWorkerManager ∧
    (simpleJobRepository.getLastJobExecution "sensitivity-analysis"
        runningExecution.jobParameters sampleStore).1 = .resolved (some runningExecution) ∧
    (sampleWorkerManager.getLastJobExecution "sensitivity-analysis"
        (JobParametersArg.params runningExecution.jobParameters) sampleWorld).1
      = .jobWorker sampleWorkerManager.jobWorker ∧
    sampleWorkerManager.jobWorker.isSome = true ∧
    (sampleWorkerManager.getLastJobExecution "sensitivity-analysis"
        (JobParametersArg.params runningExecution.jobParameters) sampleWorld).2.trace = [] ∧
    (sampleManager.getLastJobExecution "sensitivity-analysis"
        (JobParametersArg.params runningExecution.jobParameters) sampleWorld).1
      = .promise (.resolved (some runningExecution)) := by
  refine ⟨by rfl, by rfl, by rfl, by rfl, by rfl, by rfl⟩

/-- C6: after registering the listeners `ls` one by one, `beforeJob(e)` writes one debug line
and then calls `beforeJob(e)` on every registered listener, once each and in registration
order; the notifications it adds are exactly those calls, so no `afterJob` is called.
`afterJob(e)` does the same with `afterJob`. Neither touches the store, and the
notifications are the same whatever the value of `useWorker`. -/
theorem listeners_notified_in_registration_order {σ : Type} (m : JobsManager σ)
    (ls : List ListenerId) (e : JobExecution) (w : World σ) :
    (ls.foldl JobsManager.registerJobExecutionListener m).jobExecutionListeners
      = m.jobExecutionListeners ++ ls ∧
    ((ls.foldl JobsManager.registerJobExecutionListener m).beforeJob e w).trace
      = w.trace ++ Event.logDebug (LogMessage.beforeJob m.useWorker e) ::
          (m.jobExecutionListeners ++ ls).map (fun l => Event.listenerBeforeJob l e) ∧
    notifications ((ls.foldl JobsManager.registerJobExecutionListener m).beforeJob e w).trace
      = notifications w.trace ++
          (m.jobExecutionListeners ++ ls).map (fun l => Event.listenerBeforeJob l e) ∧
    ((ls.foldl JobsManager.registerJobExecutionListener m).afterJob e w).trace
      = w.trace ++ Event.logDebug (LogMessage.afterJob m.useWorker e) ::
          (m.jobExecutionListeners ++ ls).map (fun l => Event.listenerAfterJob l e) ∧
    notifications ((ls.foldl JobsManager.registerJobExecutionListener m).afterJob e w).trace
      = notifications w.trace ++
          (m.jobExecutionListeners ++ ls).map (fun l => Event.listenerAfterJob l e) ∧
    ((ls.foldl JobsManager.registerJobExecutionListener m).beforeJob e w).store = w.store ∧
    ((ls.foldl JobsManager.registerJobExecutionListener m).afterJob e w).store = w.store ∧
    (∀ b : Bool,
      notifications (({ ls.foldl JobsManager.registerJobExecutionListener m with
          useWorker := b } : JobsManager σ).beforeJob e w).trace
        = notifications ((ls.foldl JobsManager.registerJobExecutionListener m).beforeJob e w).trace ∧
      notifications (({ ls.foldl JobsManager.registerJobExecutionListener m with
          useWorker := b } : JobsManager σ).afterJob e w).trace
        = notifications ((ls.foldl JobsManager.registerJobExecutionListener m).afterJob e w).trace) := by
  refine ⟨?_, ?_, ?_, ?_, ?_, ?_, ?_, ?_⟩
  · rw [foldl_registerJobExecutionListener]
  · rw [foldl_registerJobExecutionListener, beforeJob_eq]
  · rw [foldl_registerJobExecutionListener, notifications_beforeJob]
  · rw [foldl_registerJobExecutionListener, afterJob_eq]
  · rw [foldl_registerJobExecutionListener, notifications_afterJob]
  · rw [beforeJob_eq]
  · rw [afterJob_eq]
  · intro b
    simp only [notifications_beforeJob, notifications_afterJob, and_self]

/-- C7: `initWorker(workerUrl)` creates the worker for that URL and registers exactly two
handlers, in this order: `"beforeJob"` bound to the manager method `beforeJob` and
`"afterJob"` bound to `afterJob`, both with the manager as context. The deserializer of both
maps an argument list `args` to the one-element list holding `JSON.parse(args[0], reviver)`
with the reviver of the expression engine (and throws when the parse throws). Hence, with
the event delivery of the worker, a posted `"beforeJob"` event whose first argument parses
to `e` runs the manager method `beforeJob(e)`: it notifies `beforeJob(e)` on every listener
registered at that time, and a posted `"afterJob"` event does the same with `afterJob`. -/
theorem initWorker_registers_both_handlers {σ : Type} (m : JobsManager σ) (workerUrl : String) :
    ∃ jw : JobWorker,
      (m.initWorker workerUrl).jobWorker = some jw ∧
      jw.url = workerUrl ∧
      jw.listeners.map (fun l => (l.eventName, l.handler, l.context))
        = [("beforeJob", ManagerMethod.beforeJob, HandlerContext.manager),
           ("afterJob", ManagerMethod.afterJob, HandlerContext.manager)] ∧
      (∀ l ∈ jw.listeners, ∀ args : List String,
        l.argsDeserializer args
          = (match m.expressionEngine.jsonParse args.head? m.expressionEngine.jsonReviver with
             | .error err => .error err
             | .ok v => .ok [v])) ∧
      (∀ (m2 : JobsManager σ) (args : List String) (e : JobExecution) (w : World σ),
        m.expressionEngine.jsonParse args.head? m.expressionEngine.jsonReviver = .ok e →
          jw.post m2 "beforeJob" args w = .ok (m2.beforeJob e w) ∧
          notifications (m2.beforeJob e w).trace = notifications w.trace ++
            m2.jobExecutionListeners.map (fun l => Event.listenerBeforeJob l e) ∧
          jw.post m2 "afterJob" args w = .ok (m2.afterJob e w) ∧
          notifications (m2.afterJob e w).trace = notifications w.trace ++
            m2.jobExecutionListeners.map (fun l => Event.listenerAfterJob l e)) := by
  refine ⟨_, rfl, rfl, rfl, ?_, ?_⟩
  · intro l hl args
    simp only [JobWorker.addListener, JobWorker.new, List.nil_append, List.cons_append,
      List.mem_cons, List.mem_singleton, List.not_mem_nil, or_false] at hl
    rcases hl with rfl | rfl <;> rfl
  · intro m2 args e w hparse
    refine ⟨?_, notifications_beforeJob m2 e w, ?_, notifications_afterJob m2 e w⟩
    · simp [JobWorker.post, JobWorker.addListener, JobWorker.new, List.filter,
        JobsManager.argsDeserializer, hparse]
    · simp [JobWorker.post, JobWorker.addListener, JobWorker.new, List.filter,
        JobsManager.argsDeserializer, hparse]

/-- C7, on the sample engine: the posted text `E2` revives the running sample execution, and
the manager with listeners `1` and `2` notifies both, in that order. -/
theorem initWorker_registers_both_handlers_witness :
    sampleEngine.jsonParse (["E2"] : List String).head? sampleEngine.jsonReviver
      = .ok runningExecution ∧
    ∃ jw : JobWorker,
      (sampleManager.initWorker "worker.js").jobWorker = some jw ∧
      jw.post ((sampleManager.registerJobExecutionListener 1).registerJobExecutionListener 2)
          "beforeJob" ["E2"] sampleWorld
        = .ok (((sampleManager.registerJobExecutionListener 1).registerJobExecutionListener 2).beforeJob
            runningExecution sampleWorld) ∧
      notifications (((sampleManager.registerJobExecutionListener 1).registerJobExecutionListener
          2).beforeJob runningExecution sampleWorld).trace
        = [Event.listenerBeforeJob 1 runningExecution, Event.listenerBeforeJob 2 runningExecution] :=
  ⟨by rfl,
    match initWorker_registers_both_handlers sampleManager "worker.js" with
    | ⟨jw, h1, _, _, _, h5⟩ =>
      ⟨jw, h1,
        (h5 ((sampleManager.registerJobExecutionListener 1).registerJobExecutionListener 2)
          ["E2"] runningExecution sampleWorld (by rfl)).1,
        (h5 ((sampleManager.registerJobExecutionListener 1).registerJobExecutionListener 2)
          ["E2"] runningExecution sampleWorld (by rfl)).2.1⟩⟩

/-- C8: when the constructor returns a manager, `useWorker` is true exactly when the worker
URL is truthy, and exactly then a `JobWorker` exists (one was created, for that URL, and the
manager holds it); one repository and one launcher were created; the launcher received the
repository object the manager holds, which is the one `registerJobs` registered the job in,
and the worker field of the manager, which is `undefined` when the URL is not truthy. -/
theorem constructor_wires_repository_worker_launcher {σ : Type} (imports : Imports σ)
    (expressionsEvaluator : ExpressionsEvaluator) (objectiveRulesManager : ObjectiveRulesManager)
    (workerUrl : Option String) (m : JobsManager σ) (w : World σ)
    (h : JobsManager.constructor imports expressionsEvaluator objectiveRulesManager workerUrl
      = (.ok m, w)) :
    (m.useWorker = true ↔ truthy workerUrl = true) ∧
    (m.jobWorker.isSome = true ↔ truthy workerUrl = true) ∧
    (∀ jw, m.jobWorker = some jw → workerUrl = some jw.url) ∧
    constructed w.trace (fun a => a matches .JobWorker _)
      = (if truthy workerUrl then [Allocation.JobWorker (workerUrl.getD "")] else []) ∧
    constructed w.trace (fun a => a matches .IdbJobRepository | .SimpleJobRepository)
      = [Allocation.IdbJobRepository] ∧
    constructed w.trace (fun a => a matches .JobLauncher) = [Allocation.JobLauncher] ∧
    (∃ launcher : JobLauncher σ,
      m.jobLauncher = some launcher ∧
      launcher.jobRepository = m.jobRepository ∧
      launcher.jobWorker = m.jobWorker ∧
      (truthy workerUrl = false → launcher.jobWorker = none)) ∧
    (m.jobRepository.ops.registerJob imports.sensitivityAnalysisJob imports.idbStore).1 = .ok () ∧
    w.store
      = (m.jobRepository.ops.registerJob imports.sensitivityAnalysisJob imports.idbStore).2 ∧
    Event.registerJob imports.sensitivityAnalysisJob.name ∈ w.trace := by
  obtain ⟨hreg, huse, hrepo, _, _, hl, hstore, hcases⟩ :=
    constructor_ok imports expressionsEvaluator objectiveRulesManager workerUrl m w h
  have hops : m.jobRepository.ops = imports.idbOps := by rw [hrepo]
  rcases hcases with ⟨ht, hjw, htrace⟩ | ⟨url, jw, hurl, ht, hjw, hjurl, htrace⟩
  · refine ⟨by simp [huse, ht], by simp [hjw, ht], by simp [hjw], ?_, ?_, ?_,
      ⟨_, hl, rfl, rfl, fun _ => hjw⟩, by rw [hops]; exact hreg, by rw [hops]; exact hstore, ?_⟩
    · simp [htrace, ht, constructed]
    · simp [htrace, constructed]
    · simp [htrace, constructed]
    · simp [htrace]
  · refine ⟨by simp [huse, ht], by simp [hjw, ht], ?_, ?_, ?_, ?_,
      ⟨_, hl, rfl, rfl, fun hf => by simp [ht] at hf⟩, by rw [hops]; exact hreg,
      by rw [hops]; exact hstore, ?_⟩
    · intro jw2 h2
      rw [hjw] at h2
      cases h2
      rw [hurl, hjurl]
    · rw [hurl] at ht
      simp [htrace, ht, hurl, constructed]
    · simp [htrace, constructed]
    · simp [htrace, constructed]
    · simp [htrace]

/-- C8, on the sample imports: construction with the URL `worker.js` and with no URL. -/
theorem constructor_wires_repository_worker_launcher_witness :
    (JobsManager.constructor sampleImports { expressionEngine := sampleEngine }
        { ruleName := "expected-value-maximization" } (some "worker.js")
      = (.ok sampleWorkerManager,
          { store := sampleStore
            trace := [Event.construct Allocation.IdbJobRepository,
              Event.construct Allocation.SensitivityAnalysisJob,
              Event.registerJob "sensitivity-analysis",
              Event.registerExecutionListener "sensitivity-analysis",
              Event.construct (Allocation.JobWorker "worker.js"),
              Event.construct Allocation.JobLauncher] })) ∧
    (sampleWorkerManager.useWorker = true ↔ truthy (some "worker.js") = true) ∧
    (sampleWorkerManager.jobWorker.isSome = true ↔ truthy (some "worker.js") = true) :=
  ⟨by rfl,
    (constructor_wires_repository_worker_launcher sampleImports
      { expressionEngine := sampleEngine } { ruleName := "expected-value-maximization" }
      (some "worker.js") sampleWorkerManager _ (by rfl)).1,
    (constructor_wires_repository_worker_launcher sampleImports
      { expressionEngine := sampleEngine } { ruleName := "expected-value-maximization" }
      (some "worker.js") sampleWorkerManager _ (by rfl)).2.1⟩

/-- C9 fails: no construction input makes the manager hold a `SimpleJobRepository`; whatever
the imports, the evaluator, the rules manager and the worker URL, a constructed manager
never holds the in-memory backend. -/
theorem repository_backend_selection_counterexample :
    ¬ ∃ (imports : Imports SimpleStore) (expressionsEvaluator : ExpressionsEvaluator)
        (objectiveRulesManager : ObjectiveRulesManager) (workerUrl : Option String)
        (m : JobsManager SimpleStore) (w : World SimpleStore),
      JobsManager.constructor imports expressionsEvaluator objectiveRulesManager workerUrl
        = (.ok m, w) ∧
      m.jobRepository.kind = RepositoryKind.SimpleJobRepository := by
  rintro ⟨imports, ev, orm, url, m, w, h, hkind⟩
  obtain ⟨_, _, hrepo, _⟩ := constructor_ok imports ev orm url m w h
  rw [hrepo] at hkind
  cases hkind

/-- C9, amended: the constructor has no input that selects the backend. For every
construction input, the manager holds the durable backend: the repository object comes from
`new IdbJobRepository()`, its operations are those of that class, and it is the only
repository created. -/
theorem constructor_always_holds_idb_repository {σ : Type} (imports : Imports σ)
    (expressionsEvaluator : ExpressionsEvaluator) (objectiveRulesManager : ObjectiveRulesManager)
    (workerUrl : Option String) (m : JobsManager σ) (w : World σ)
    (h : JobsManager.constructor imports expressionsEvaluator objectiveRulesManager workerUrl
      = (.ok m, w)) :
    m.jobRepository.kind = RepositoryKind.IdbJobRepository ∧
    m.jobRepository.ops = imports.idbOps ∧
    constructed w.trace (fun a => a matches .IdbJobRepository | .SimpleJobRepository)
      = [Allocation.IdbJobRepository] := by
  obtain ⟨_, _, hrepo, _, _, _, _, hcases⟩ :=
    constructor_ok imports expressionsEvaluator objectiveRulesManager workerUrl m w h
  refine ⟨by rw [hrepo], by rw [hrepo], ?_⟩
  rcases hcases with ⟨_, _, htrace⟩ | ⟨url, jw, _, _, _, _, htrace⟩ <;>
    simp [htrace, constructed]

/-- C9, amended, on the sample imports: construction without a worker URL. -/
theorem constructor_always_holds_idb_repository_witness :
    (JobsManager.constructor sampleImports { expressionEngine := sampleEngine }
        { ruleName := "expected-value-maximization" } none).1 = .ok sampleLocalManager ∧
    sampleLocalManager.jobRepository.kind = RepositoryKind.IdbJobRepository :=
  ⟨by rfl,
    (constructor_always_holds_idb_repository sampleImports { expressionEngine := sampleEngine }
      { ruleName := "expected-value-maximization" } none sampleLocalManager
      (JobsManager.constructor sampleImports { expressionEngine := sampleEngine }
        { ruleName := "expected-value-maximization" } none).2 (by rfl)).1⟩

/-- C10: `getProgress` of a string id `s` is the promise of
`jobRepository.getJobExecutionProgress(s)`, and `getProgress` of an execution object `e` is
the promise of `jobRepository.getJobExecutionProgress(e.id)`; so both agree when `e.id` is
the string `s`. In every case the only call made is that one progress read: the full record
is not read, no flag is written, and the store is the one the progress read left. -/
theorem getProgress_is_repository_progress {σ : Type} (m : JobsManager σ) (w : World σ) :
    (∀ s : String,
      (m.getProgress (ExecutionOrId.id s) w).1
        = (m.jobRepository.ops.getJobExecutionProgress (IdValue.str s) w.store).1) ∧
    (∀ e : JobExecution,
      (m.getProgress (ExecutionOrId.execution e) w).1
        = (m.jobRepository.ops.getJobExecutionProgress e.id w.store).1) ∧
    (∀ (e : JobExecution) (s : String), e.id = IdValue.str s →
      m.getProgress (ExecutionOrId.execution e) w = m.getProgress (ExecutionOrId.id s) w) ∧
    (∀ x : ExecutionOrId,
      (m.getProgress x w).2.trace = w.trace ++ [Event.getJobExecutionProgress (resolveId x)] ∧
      (m.getProgress x w).2.store
        = (m.jobRepository.ops.getJobExecutionProgress (resolveId x) w.store).2 ∧
      recordReads (m.getProgress x w).2.trace = recordReads w.trace ∧
      flagWrites (m.getProgress x w).2.trace = flagWrites w.trace) := by
  refine ⟨fun s => rfl, fun e => rfl, ?_, ?_⟩
  · intro e s hid
    simp [JobsManager.getProgress, resolveId, hid]
  · intro x
    refine ⟨rfl, rfl, ?_, ?_⟩
    · simp [JobsManager.getProgress, recordReads_append, recordReads]
    · simp [JobsManager.getProgress, flagWrites_append, flagWrites]

/-- C10, on the sample store: the progress of the running execution, asked by object and by
id. -/
theorem getProgress_is_repository_progress_witness :
    runningExecution.id = IdValue.str "e2" ∧
    sampleManager.getProgress (ExecutionOrId.execution runningExecution) sampleWorld
      = sampleManager.getProgress (ExecutionOrId.id "e2") sampleWorld ∧
    (sampleManager.getProgress (ExecutionOrId.id "e2") sampleWorld).1
      = .resolved { status := JobStatus.RUNNING, current := 1, total := 4 } :=
  ⟨by rfl,
    (getProgress_is_repository_progress sampleManager sampleWorld).2.2.1 runningExecution "e2"
      (by rfl),
    by rfl⟩

theorem listenerRegistrations_append (a b : List Event) :
    listenerRegistrations (a ++ b) = listenerRegistrations a ++ listenerRegistrations b := by
  simp [listenerRegistrations, List.filterMap_append]

/-- C11: when `jobRepository.registerJob(job)` throws `err` (leaving the store `s1`), the
method `registerJob` of the manager throws the same `err`; it makes no further repository
call, so the store is exactly the one the repository left (unchanged when the repository
refused without touching its registry), and `job.registerExecutionListener(this)` is not
called: the manager is not added as a listener of the rejected job. -/
theorem registerJob_failure_propagates {σ : Type} (m : JobsManager σ) (job : Job)
    (w : World σ) (err : JobError) (s1 : σ)
    (hfail : m.jobRepository.ops.registerJob job w.store = (.error err, s1)) :
    (m.registerJob job w).1 = .error err ∧
    (m.registerJob job w).2.store = s1 ∧
    (s1 = w.store → (m.registerJob job w).2.store = w.store) ∧
    (m.registerJob job w).2.trace = w.trace ++ [Event.registerJob job.name] ∧
    listenerRegistrations (m.registerJob job w).2.trace = listenerRegistrations w.trace := by
  have h1 : (m.registerJob job w).1 = .error err := by
    simp [JobsManager.registerJob, hfail]
  have h2 : (m.registerJob job w).2.store = s1 := by
    simp [JobsManager.registerJob, hfail]
  have h3 : (m.registerJob job w).2.trace = w.trace ++ [Event.registerJob job.name] := by
    simp [JobsManager.registerJob, hfail]
  refine ⟨h1, h2, fun hs => by rw [h2, hs], h3, ?_⟩
  rw [h3, listenerRegistrations_append]
  simp [listenerRegistrations]

/-- C11, on the sample store: the name `sensitivity-analysis` is taken, so registering the
sample job again fails with the duplicate-name error and leaves the store as it was. -/
theorem registerJob_failure_propagates_witness :
    simpleJobRepository.registerJob sampleJob sampleWorld.store
        = (.error (JobError.duplicateJob "sensitivity-analysis"), sampleStore) ∧
    (sampleManager.registerJob sampleJob sampleWorld).1
        = .error (JobError.duplicateJob "sensitivity-analysis") ∧
    (sampleManager.registerJob sampleJob sampleWorld).2.store = sampleWorld.store ∧
    listenerRegistrations (sampleManager.registerJob sampleJob sampleWorld).2.trace
        = listenerRegistrations sampleWorld.trace :=
  ⟨by rfl,
    (registerJob_failure_propagates sampleManager sampleJob sampleWorld
      (JobError.duplicateJob "sensitivity-analysis") sampleStore (by rfl)).1,
    (registerJob_failure_propagates sampleManager sampleJob sampleWorld
      (JobError.duplicateJob "sensitivity-analysis") sampleStore (by rfl)).2.2.1 (by rfl),
    (registerJob_failure_propagates sampleManager sampleJob sampleWorld
      (JobError.duplicateJob "sensitivity-analysis") sampleStore (by rfl)).2.2.2.2⟩

theorem d3_pad_length (value width : Nat) (fill : Char) (hw : 0 < width)
    (hv : value < 10 ^ width) : (d3.pad value fill width).length = width := by
  have hle : (toString value).length ≤ width := Nat.repr_length value width hw hv
  unfold d3.pad
  by_cases h : (toString value).length < width
  · simp only [h, if_true, String.length_append]
    have : (String.mk (List.replicate (width - (toString value).length) fill)).length
        = width - (toString value).length := by
      show (List.replicate (width - (toString value).length) fill).length = _
      simp
    omega
  · simp only [h, if_false]
    omega

theorem timeFormat_export_specifier (d : LocalDate) :
    d3.timeFormat "%Y.%m.%d_%H.%M.%S" d = exportTimeStamp d := by
  unfold d3.timeFormat
  rw [show "%Y.%m.%d_%H.%M.%S".toList
      = ['%', 'Y', '.', '%', 'm', '.', '%', 'd', '_', '%', 'H', '.', '%', 'M', '.', '%', 'S']
      from rfl]
  simp [d3.formatChars, d3.formatDirective, exportTimeStamp]
  rfl

theorem exportTimeStamp_length (d : LocalDate) : (exportTimeStamp d).length = 19 := by
  have hY := d3_pad_length (d.fullYear % 10000) 4 '0' (by decide)
    (Nat.mod_lt _ (by decide))
  have hm := d3_pad_length (d.month + 1) 2 '0' (by decide) (by have := d.month_lt; omega)
  have hd := d3_pad_length d.date 2 '0' (by decide) (by have := d.date_le; omega)
  have hH := d3_pad_length d.hours 2 '0' (by decide) (by have := d.hours_lt; omega)
  have hM := d3_pad_length d.minutes 2 '0' (by decide) (by have := d.minutes_lt; omega)
  have hS := d3_pad_length d.seconds 2 '0' (by decide) (by have := d.seconds_lt; omega)
  simp only [exportTimeStamp, String.length_append, hY, hm, hd, hH, hM, hS]
  rfl

theorem getExportFileName_eq (date : LocalDate) (ext : Option String) :
    Exporter.getExportFileName date ext
      = (if truthy ext = true then
          ("decisiontree@" ++ exportTimeStamp date) ++ ("." ++ ext.getD "")
        else "decisiontree@" ++ exportTimeStamp date) := by
  have hname : "decisiontree" ++ ("@" ++ exportTimeStamp date)
      = "decisiontree@" ++ exportTimeStamp date := by
    rw [← String.append_assoc]
    rfl
  unfold Exporter.getExportFileName
  simp only [timeFormat_export_specifier, hname]
  cases ext with
  | none => simp [truthy]
  | some e => by_cases h : truthy (some e) = true <;> simp [h]

/-- C12: for the date `date` read by `new Date()` and every extension argument, the export
file name is `decisiontree@` followed by the time stamp of the date, whose fields are the
year (four digits), month, day, hours, minutes and seconds (two digits each), zero-padded
and separated as in `YYYY.MM.DD_HH.MM.SS`, 19 characters in all; a non-empty string `e` as
extension adds `.` and `e`, and with no extension (`undefined` or the empty string) the name
ends with the seconds field. -/
theorem getExportFileName_form (date : LocalDate) (ext : Option String) :
    exportTimeStamp date
      = d3.pad (date.fullYear % 10000) '0' 4 ++ ("." ++ (d3.pad (date.month + 1) '0' 2 ++
          ("." ++ (d3.pad date.date '0' 2 ++ ("_" ++ (d3.pad date.hours '0' 2 ++ ("." ++
            (d3.pad date.minutes '0' 2 ++ ("." ++ d3.pad date.seconds '0' 2))))))))) ∧
    (d3.pad (date.fullYear % 10000) '0' 4).length = 4 ∧
    (d3.pad (date.month + 1) '0' 2).length = 2 ∧
    (d3.pad date.date '0' 2).length = 2 ∧
    (d3.pad date.hours '0' 2).length = 2 ∧
    (d3.pad date.minutes '0' 2).length = 2 ∧
    (d3.pad date.seconds '0' 2).length = 2 ∧
    (exportTimeStamp date).length = 19 ∧
    (∀ e : String, ext = some e → e ≠ "" →
      Exporter.getExportFileName date ext
        = ("decisiontree@" ++ exportTimeStamp date) ++ ("." ++ e) ∧
      (Exporter.getExportFileName date ext).length = 33 + e.length) ∧
    (ext = none ∨ ext = some "" →
      Exporter.getExportFileName date ext = "decisiontree@" ++ exportTimeStamp date ∧
      (Exporter.getExportFileName date ext).length = 32) := by
  have hlen := exportTimeStamp_length date
  have hprefix : ("decisiontree@" : String).length = 13 := by rfl
  have hdot : (".": String).length = 1 := by rfl
  refine ⟨rfl,
    d3_pad_length _ 4 '0' (by decide) (Nat.mod_lt _ (by decide)),
    d3_pad_length _ 2 '0' (by decide) (by have := date.month_lt; omega),
    d3_pad_length _ 2 '0' (by decide) (by have := date.date_le; omega),
    d3_pad_length _ 2 '0' (by decide) (by have := date.hours_lt; omega),
    d3_pad_length _ 2 '0' (by decide) (by have := date.minutes_lt; omega),
    d3_pad_length _ 2 '0' (by decide) (by have := date.seconds_lt; omega),
    hlen, ?_, ?_⟩
  · intro e he hne
    subst he
    have ht : truthy (some e) = true := by simp [truthy, hne]
    have hname := getExportFileName_eq date (some e)
    simp only [ht, if_true, Option.getD_some] at hname
    rw [hname]
    refine ⟨rfl, ?_⟩
    simp only [String.length_append, hlen, hprefix, hdot]
    omega
  · intro he
    have ht : truthy ext = false := by
      rcases he with he | he <;> simp [he, truthy]
    have hname := getExportFileName_eq date ext
    simp only [ht] at hname
    rw [hname]
    refine ⟨by simp, ?_⟩
    simp [String.length_append, hlen, hprefix]

/-- C12, on the sample date: the names built for the extension `pdf`, for no extension and
for the empty extension. -/
theorem getExportFileName_form_witness :
    Exporter.getExportFileName sampleDate (some "pdf") = "decisiontree@2017.03.05_09.07.02.pdf" ∧
    Exporter.getExportFileName sampleDate none = "decisiontree@2017.03.05_09.07.02" ∧
    Exporter.getExportFileName sampleDate (some "") = "decisiontree@2017.03.05_09.07.02" ∧
    (Exporter.getExportFileName sampleDate (some "pdf")).length = 33 + ("pdf" : String).length ∧
    (Exporter.getExportFileName sampleDate none).length = 32 :=
  ⟨by decide, by decide, by decide,
    ((getExportFileName_form sampleDate (some "pdf")).2.2.2.2.2.2.2.2.1 "pdf" rfl
      (by decide)).2,
    ((getExportFileName_form sampleDate none).2.2.2.2.2.2.2.2.2 (Or.inl rfl)).2⟩

theorem exportPdfClientSide_counts (env : ExportEnv) (width height : Nat) :
    clientExports (Exporter.exportPdfClientSide env width height).2 = 1 ∧
    serverExports (Exporter.exportPdfClientSide env width height).2 = 0 := by
  unfold Exporter.exportPdfClientSide clientExports serverExports
  cases env.jsPDFDefined <;> cases env.svg2pdfDefined <;> cases env.svg2pdfThrows <;>
    cases env.docSaveThrows <;> simp

theorem exportPdfServerSide_counts (env : ExportEnv) (url : String) :
    clientExports (Exporter.exportPdfServerSide env url).2 = 0 ∧
    serverExports (Exporter.exportPdfServerSide env url).2 = 1 := by
  unfold Exporter.exportPdfServerSide clientExports serverExports
  cases env.postThrows <;> simp

/-- The actions of `saveAsPdf` in server mode. -/
theorem saveAsPdf_server (env : ExportEnv) (url : String) :
    Exporter.saveAsPdf env { pdfMode := "server", serverUrl := url }
      = (match env.svgString with
        | .error e =>
          [ExportAction.loadingShow, ExportAction.getSVGString, ExportAction.consoleLog e,
            ExportAction.loadingHide, ExportAction.alert "error.pdfExportNotSupported"]
        | .ok _ =>
          match (Exporter.exportPdfServerSide env url).1 with
          | .ok _ =>
            ExportAction.loadingShow :: ExportAction.getSVGString ::
              (Exporter.exportPdfServerSide env url).2
          | .error e =>
            ExportAction.loadingShow :: ExportAction.getSVGString ::
              (Exporter.exportPdfServerSide env url).2 ++
              [ExportAction.consoleLog e, ExportAction.loadingHide,
                ExportAction.alert "error.pdfExportNotSupported"]) := by
  unfold Exporter.saveAsPdf Exporter.saveAsPdfBody
  rcases hs : env.svgString with e | svg
  · simp
  · rcases hp : (Exporter.exportPdfServerSide env url).1 with e | u <;> simp [hp]

/-- The actions of `saveAsPdf` in client mode. -/
theorem saveAsPdf_client (env : ExportEnv) (url : String) :
    Exporter.saveAsPdf env { pdfMode := "client", serverUrl := url }
      = (if Exporter.isClientSidePdfExportAvailable env = false then
          [ExportAction.alert "error.jsPDFisNotIncluded"]
        else
          match env.svgString with
          | .error e =>
            [ExportAction.loadingShow, ExportAction.getSVGString, ExportAction.consoleLog e,
              ExportAction.loadingHide, ExportAction.alert "error.pdfExportNotSupported"]
          | .ok _ =>
            match (Exporter.exportPdfClientSide env (env.svgWidth + 2 * 20)
                (env.svgHeight + 2 * 20)).1 with
            | .ok _ =>
              ExportAction.loadingShow :: ExportAction.getSVGString ::
                (Exporter.exportPdfClientSide env (env.svgWidth + 2 * 20)
                  (env.svgHeight + 2 * 20)).2
            | .error e =>
              ExportAction.loadingShow :: ExportAction.getSVGString ::
                (Exporter.exportPdfClientSide env (env.svgWidth + 2 * 20)
                  (env.svgHeight + 2 * 20)).2 ++
                [ExportAction.consoleLog "client side pdf rendering failed!",
                  ExportAction.consoleLog e, ExportAction.loadingHide,
                  ExportAction.alert "error.pdfExportNotSupported"]) := by
  unfold Exporter.saveAsPdf Exporter.saveAsPdfBody
  by_cases ha : Exporter.isClientSidePdfExportAvailable env = false
  · simp [ha]
  · rcases hs : env.svgString with e | svg
    · simp [ha]
    · rcases hc : (Exporter.exportPdfClientSide env (env.svgWidth + 2 * 20)
        (env.svgHeight + 2 * 20)).1 with e | u <;> simp [ha, hc]

/-- The actions of `saveAsPdf` in fallback mode. -/
theorem saveAsPdf_fallback (env : ExportEnv) (url : String) :
    Exporter.saveAsPdf env { pdfMode := "fallback", serverUrl := url }
      = (match env.svgString with
        | .error e =>
          [ExportAction.loadingShow, ExportAction.getSVGString, ExportAction.consoleLog e,
            ExportAction.loadingHide, ExportAction.alert "error.pdfExportNotSupported"]
        | .ok _ =>
          match (Exporter.exportPdfClientSide env (env.svgWidth + 2 * 20)
              (env.svgHeight + 2 * 20)).1 with
          | .ok _ =>
            ExportAction.loadingShow :: ExportAction.getSVGString ::
              (Exporter.exportPdfClientSide env (env.svgWidth + 2 * 20)
                (env.svgHeight + 2 * 20)).2
          | .error _ =>
            ExportAction.loadingShow :: ExportAction.getSVGString ::
              (Exporter.exportPdfClientSide env (env.svgWidth + 2 * 20)
                (env.svgHeight + 2 * 20)).2 ++
              ([ExportAction.consoleLog "client side pdf rendering failed!",
                ExportAction.consoleLog "performing server side fallback."] ++
              ((Exporter.exportPdfServerSide env url).2 ++
                (match (Exporter.exportPdfServerSide env url).1 with
                | .ok _ => []
                | .error e2 =>
                  [ExportAction.consoleLog e2, ExportAction.loadingHide,
                    ExportAction.alert "error.pdfExportNotSupported"])))) := by
  unfold Exporter.saveAsPdf Exporter.saveAsPdfBody
  rcases hs : env.svgString with e | svg
  · simp
  · rcases hc : (Exporter.exportPdfClientSide env (env.svgWidth + 2 * 20)
      (env.svgHeight + 2 * 20)).1 with e | u
    · rcases hp : (Exporter.exportPdfServerSide env url).1 with e2 | u2 <;> simp [hc, hp]
    · simp [hc]

/-- C13 fails in a browser where `getSVGString` throws (the case the outer `catch` reports
as `error.pdfExportNotSupported`): in server mode the server export is not requested at
all, and in fallback mode the client-side export is not attempted. -/
theorem saveAsPdf_modes_counterexample :
    serverExports (Exporter.saveAsPdf
        { sampleExportEnv with svgString := .error "XMLSerializer is not defined" }
        (sampleOptions "server")) = 0 ∧
    clientExports (Exporter.saveAsPdf
        { sampleExportEnv with svgString := .error "XMLSerializer is not defined" }
        (sampleOptions "fallback")) = 0 ∧
    Exporter.saveAsPdf
        { sampleExportEnv with svgString := .error "XMLSerializer is not defined" }
        (sampleOptions "server")
      = [ExportAction.loadingShow, ExportAction.getSVGString,
          ExportAction.consoleLog "XMLSerializer is not defined", ExportAction.loadingHide,
          ExportAction.alert "error.pdfExportNotSupported"] := by
  refine ⟨by decide, by decide, by decide⟩

/-- C13, amended: for each of the three modes, with `fb`, `cl`, `sv` the runs of `saveAsPdf`
in that mode. Server mode never invokes the client-side export, and requests the server
export exactly once when `getSVGString` returned and not at all when it threw. Client mode
never requests the server export, and without client-side support it only shows the alert.
Fallback mode, when `getSVGString` returned, invokes the client-side export once, before
anything else is exported, and requests the server export (once) exactly when the
client-side export threw; when `getSVGString` threw, neither export is attempted. -/
theorem saveAsPdf_mode_behaviour (env : ExportEnv) (url : String) :
    (clientExports (Exporter.saveAsPdf env { pdfMode := "server", serverUrl := url }) = 0 ∧
      (∀ svg, env.svgString = .ok svg →
        serverExports (Exporter.saveAsPdf env { pdfMode := "server", serverUrl := url }) = 1) ∧
      (∀ e, env.svgString = .error e →
        serverExports (Exporter.saveAsPdf env { pdfMode := "server", serverUrl := url }) = 0)) ∧
    (serverExports (Exporter.saveAsPdf env { pdfMode := "client", serverUrl := url }) = 0 ∧
      (Exporter.isClientSidePdfExportAvailable env = false →
        Exporter.saveAsPdf env { pdfMode := "client", serverUrl := url }
          = [ExportAction.alert "error.jsPDFisNotIncluded"])) ∧
    ((∀ svg, env.svgString = .ok svg →
        clientExports (Exporter.saveAsPdf env { pdfMode := "fallback", serverUrl := url }) = 1 ∧
        (serverExports (Exporter.saveAsPdf env { pdfMode := "fallback", serverUrl := url }) = 1 ↔
          ∃ e, (Exporter.exportPdfClientSide env (env.svgWidth + 2 * 20)
            (env.svgHeight + 2 * 20)).1 = .error e) ∧
        ((∃ u, (Exporter.exportPdfClientSide env (env.svgWidth + 2 * 20)
            (env.svgHeight + 2 * 20)).1 = .ok u) →
          serverExports (Exporter.saveAsPdf env { pdfMode := "fallback", serverUrl := url }) = 0) ∧
        (∃ rest, Exporter.saveAsPdf env { pdfMode := "fallback", serverUrl := url }
            = ExportAction.loadingShow :: ExportAction.getSVGString ::
              (Exporter.exportPdfClientSide env (env.svgWidth + 2 * 20)
                (env.svgHeight + 2 * 20)).2 ++ rest ∧
          clientExports rest = 0)) ∧
      (∀ e, env.svgString = .error e →
        clientExports (Exporter.saveAsPdf env { pdfMode := "fallback", serverUrl := url }) = 0 ∧
        serverExports (Exporter.saveAsPdf env { pdfMode := "fallback", serverUrl := url }) = 0)) := by
  have hc := exportPdfClientSide_counts env (env.svgWidth + 2 * 20) (env.svgHeight + 2 * 20)
  have hs := exportPdfServerSide_counts env url
  simp only [clientExports, serverExports] at hc hs ⊢
  refine ⟨⟨?_, ?_, ?_⟩, ⟨?_, ?_⟩, ⟨?_, ?_⟩⟩
  · rw [saveAsPdf_server]
    rcases hsvg : env.svgString with e | svg
    · simp [hc.1, hc.2, hs.1, hs.2]
    · rcases hp : (Exporter.exportPdfServerSide env url).1 with e | u <;>
        simp [hc.1, hc.2, hs.1, hs.2]
  · intro svg hsvg
    rw [saveAsPdf_server, hsvg]
    rcases hp : (Exporter.exportPdfServerSide env url).1 with e | u <;>
      simp [hc.1, hc.2, hs.1, hs.2]
  · intro e hsvg
    rw [saveAsPdf_server, hsvg]
    simp [hc.1, hc.2, hs.1, hs.2]
  · rw [saveAsPdf_client]
    by_cases ha : Exporter.isClientSidePdfExportAvailable env = false
    · simp [ha, hc.1, hc.2, hs.1, hs.2]
    · rcases hsvg : env.svgString with e | svg
      · simp [ha, hc.1, hc.2, hs.1, hs.2]
      · rcases hcl : (Exporter.exportPdfClientSide env (env.svgWidth + 2 * 20)
          (env.svgHeight + 2 * 20)).1 with e | u <;>
          simp [ha, hc.1, hc.2, hs.1, hs.2]
  · intro ha
    rw [saveAsPdf_client]
    simp [ha]
  · intro svg hsvg
    rw [saveAsPdf_fallback, hsvg]
    rcases hcl : (Exporter.exportPdfClientSide env (env.svgWidth + 2 * 20)
      (env.svgHeight + 2 * 20)).1 with e | u
    · refine ⟨?_, ?_, ?_, ⟨_, rfl, ?_⟩⟩
      · rcases hp : (Exporter.exportPdfServerSide env url).1 with e2 | u2 <;>
          simp [hc.1, hc.2, hs.1, hs.2]
      · rcases hp : (Exporter.exportPdfServerSide env url).1 with e2 | u2 <;>
          simp [hc.1, hc.2, hs.1, hs.2]
      · rintro ⟨u, hu⟩
        cases hu
      · rcases hp : (Exporter.exportPdfServerSide env url).1 with e2 | u2 <;>
          simp [hc.1, hc.2, hs.1, hs.2]
    · refine ⟨?_, ?_, ?_, ⟨[], by simp, rfl⟩⟩
      · simp [hc.1, hc.2, hs.1, hs.2]
      · simp [hc.1, hc.2, hs.1, hs.2]
      · intro _
        simp [hc.1, hc.2, hs.1, hs.2]
  · intro e hsvg
    rw [saveAsPdf_fallback, hsvg]
    simp [hc.1, hc.2, hs.1, hs.2]

/-- C13, amended, on sample browsers: with every call succeeding, server mode requests the
server once; without `jsPDF`, client mode only alerts and fallback mode falls back to the
server after the failed client-side attempt. -/
theorem saveAsPdf_mode_behaviour_witness :
    (sampleExportEnv.svgString = .ok "<svg></svg>" ∧
      Exporter.isClientSidePdfExportAvailable { sampleExportEnv with jsPDFDefined := false }
        = false ∧
      (∃ e, (Exporter.exportPdfClientSide { sampleExportEnv with jsPDFDefined := false }
        (300 + 2 * 20) (200 + 2 * 20)).1 = .error e)) ∧
    serverExports (Exporter.saveAsPdf sampleExportEnv
      { pdfMode := "server", serverUrl := "http://export.highcharts.com" }) = 1 ∧
    Exporter.saveAsPdf { sampleExportEnv with jsPDFDefined := false }
        { pdfMode := "client", serverUrl := "http://export.highcharts.com" }
      = [ExportAction.alert "error.jsPDFisNotIncluded"] ∧
    serverExports (Exporter.saveAsPdf { sampleExportEnv with jsPDFDefined := false }
      { pdfMode := "fallback", serverUrl := "http://export.highcharts.com" }) = 1 :=
  ⟨⟨rfl, rfl, ⟨_, rfl⟩⟩,
    (saveAsPdf_mode_behaviour sampleExportEnv "http://export.highcharts.com").1.2.1
      "<svg></svg>" rfl,
    (saveAsPdf_mode_behaviour { sampleExportEnv with jsPDFDefined := false }
      "http://export.highcharts.com").2.1.2 rfl,
    ((saveAsPdf_mode_behaviour { sampleExportEnv with jsPDFDefined := false }
      "http://export.highcharts.com").2.2.1 "<svg></svg>" rfl).2.1.2 ⟨_, rfl⟩⟩

/-- C14: for every `keyup` event whose source element is named `INPUT` or `TEXTAREA`, in
any letter case, the handler performs no action, whatever the key, the modifiers, the
selected object and the selected nodes. -/
theorem onKeyUp_ignores_input_elements (selectedObject : SelectedObject)
    (selectedNodes : List DomainNode) (ev : KeyEvent) (nodeName : String)
    (hsrc : ev.srcElement = some nodeName)
    (hname : toUpperCase nodeName = "INPUT" ∨ toUpperCase nodeName = "TEXTAREA") :
    App.onKeyUp selectedObject selectedNodes ev = [] := by
  have hin : App.isInputEvent ev = true := by
    unfold App.isInputEvent
    rw [hsrc]
    rcases hname with h | h <;> simp [h]
  simp [App.onKeyUp, hin]

/-- C14, on a sample event: the delete key released in a `textarea` element, with a node
selected. -/
theorem onKeyUp_ignores_input_elements_witness :
    (toUpperCase "textarea" = "INPUT" ∨ toUpperCase "textarea" = "TEXTAREA") ∧
    App.onKeyUp (SelectedObject.node sampleNode) [sampleNode]
      { srcElement := some "textarea", keyCode := 46, ctrlKey := true, altKey := false } = [] ∧
    App.onKeyUp (SelectedObject.node sampleNode) [sampleNode]
      { srcElement := some "svg", keyCode := 46, ctrlKey := true, altKey := false }
      = [KeyAction.removeSelectedNodes, KeyAction.removeSelectedTexts] :=
  ⟨Or.inr (by decide),
    onKeyUp_ignores_input_elements (SelectedObject.node sampleNode) [sampleNode]
      { srcElement := some "textarea", keyCode := 46, ctrlKey := true, altKey := false }
      "textarea" rfl (Or.inr (by decide)),
    by decide⟩

/-- With ctrl and alt pressed outside an input, on a selected edge: key D only injects a
decision node, while key C injects a chance node and, because the edge branch does not
return, goes on to copy the selected nodes when there are any. -/
theorem onKeyUp_ctrl_alt_on_edge (edge : Nat) (selectedNodes : List DomainNode)
    (src : Option String) (hsrc : App.isInputEvent
      { srcElement := src, keyCode := 67, ctrlKey := true, altKey := true } = false) :
    App.onKeyUp (SelectedObject.edge edge) selectedNodes
        { srcElement := src, keyCode := 68, ctrlKey := true, altKey := true }
      = [KeyAction.injectDecisionNode edge] ∧
    App.onKeyUp (SelectedObject.edge edge) selectedNodes
        { srcElement := src, keyCode := 67, ctrlKey := true, altKey := true }
      = (if selectedNodes.length = 0 then [KeyAction.injectChanceNode edge]
        else [KeyAction.injectChanceNode edge, KeyAction.copySelectedNodes]) := by
  have h68 : App.isInputEvent
      { srcElement := src, keyCode := 68, ctrlKey := true, altKey := true } = false := hsrc
  constructor
  · simp [App.onKeyUp, h68, App.altKeyBlock, App.ctrlKeyBlock]
  · by_cases hn : selectedNodes.length = 0 <;>
      simp [App.onKeyUp, hsrc, App.altKeyBlock, App.ctrlKeyBlock, hn]

/-- C15, the failing input: ctrl+alt+C released on the diagram while edge 7 is the selected
object and one node is selected. The handler injects a chance node into the edge and then
also copies the selected nodes. -/
theorem onKeyUp_ctrl_alt_c_on_edge_also_copies :
    App.isInputEvent { srcElement := some "svg", keyCode := 67, ctrlKey := true, altKey := true }
      = false ∧
    App.onKeyUp (SelectedObject.edge 7) [sampleNode]
        { srcElement := some "svg", keyCode := 67, ctrlKey := true, altKey := true }
      = [KeyAction.injectChanceNode 7, KeyAction.copySelectedNodes] ∧
    App.onKeyUp (SelectedObject.edge 7) []
        { srcElement := some "svg", keyCode := 67, ctrlKey := true, altKey := true }
      = [KeyAction.injectChanceNode 7] ∧
    App.onKeyUp (SelectedObject.edge 7) [sampleNode]
        { srcElement := some "svg", keyCode := 68, ctrlKey := true, altKey := true }
      = [KeyAction.injectDecisionNode 7] ∧
    App.onKeyUp (SelectedObject.node sampleNode) [sampleNode]
        { srcElement := some "svg", keyCode := 67, ctrlKey := true, altKey := true }
      = [KeyAction.addChanceNode sampleNode] := by
  refine ⟨by decide, by decide, by decide, by decide, by decide⟩

theorem drawDiagram_errors (env : AppEnv) (config : DiagramConfig) :
    ∀ k ∈ (App.drawDiagram env config).2.1, k = "error.diagramDrawingFailure" := by
  unfold App.drawDiagram
  cases env.objectiveRule <;> cases env.throws AppAction.updateView <;> simp

theorem finishOpening_errors (env : AppEnv) (config : DiagramConfig) (errors : List String)
    (actions : List AppAction) :
    ∃ later : List String,
      (App.finishOpening env config errors actions).errors = errors ++ later ∧
      ∀ k ∈ later, k = "error.malformedData" ∨ k = "error.incorrectNumberFormatOptions" ∨
        k = "error.diagramDrawingFailure" := by
  unfold App.finishOpening
  by_cases hf : env.throws (AppAction.updateNumberFormats config.format) = true
  · refine ⟨["error.incorrectNumberFormatOptions"] ++
      (App.drawDiagram env { config with format := none }).2.1, by simp [hf], ?_⟩
    intro k hk
    simp only [List.mem_append, List.mem_singleton] at hk
    rcases hk with hk | hk
    · exact Or.inr (Or.inl hk)
    · exact Or.inr (Or.inr (drawDiagram_errors env _ k hk))
  · refine ⟨(App.drawDiagram env config).2.1, by simp [hf], ?_⟩
    intro k hk
    exact Or.inr (Or.inr (drawDiagram_errors env _ k hk))

theorem loadDiagram_errors (env : AppEnv) (config : DiagramConfig) (d : DiagramData)
    (source : DataModelSource) (errors : List String) (actions : List AppAction) :
    ∃ later : List String,
      (App.loadDiagram env config d source errors actions).errors = errors ++ later ∧
      ∀ k ∈ later, k = "error.malformedData" ∨ k = "error.incorrectNumberFormatOptions" ∨
        k = "error.diagramDrawingFailure" := by
  unfold App.loadDiagram
  by_cases hl : (runGuarded env (App.loadCalls d source)).2 = true
  · exact ⟨["error.malformedData"], by simp [hl], by simp⟩
  · simp only [hl]
    exact finishOpening_errors env _ errors _

/-- The errors of `openDiagram` for a file that carries a version: the keys pushed by the
version check, followed by keys of the later stages only. -/
theorem openDiagram_errors_of_version (env : AppEnv) (config : DiagramConfig)
    (input : DiagramInput) (d : DiagramData)
    (hparsed : App.parseDiagram env input = .ok (JsonValue.object d))
    (hversion : truthyString d.SilverDecisions = true) :
    ∃ later : List String,
      (App.openDiagram env config input).errors
        = (App.checkVersion env (d.SilverDecisions.getD "")).1 ++ later ∧
      ∀ k ∈ later, k = "error.malformedData" ∨ k = "error.incorrectNumberFormatOptions" ∨
        k = "error.diagramDrawingFailure" := by
  unfold App.openDiagram
  simp only [hparsed, hversion, Bool.not_true, Bool.false_eq_true, if_false]
  exact loadDiagram_errors env config d _ _ _

/-- C16: for a diagram file that carries a `SilverDecisions` version `v`, the errors of
`openDiagram` contain `error.fileVersionNewerThanApplicationVersion` exactly when `v` is a
valid version string and `compareVersionNumbers(v, App.version) > 0`; they contain
`error.incorrectVersionFormat` exactly when `v` is not a valid version string, and then
never the newer-version error. -/
theorem openDiagram_version_errors (env : AppEnv) (config : DiagramConfig)
    (input : DiagramInput) (d : DiagramData) (v : String)
    (hparsed : App.parseDiagram env input = .ok (JsonValue.object d))
    (hversion : d.SilverDecisions = some v) (hne : v ≠ "") :
    ("error.fileVersionNewerThanApplicationVersion" ∈ (App.openDiagram env config input).errors ↔
      env.isValidVersionString v = true ∧ 0 < env.compareVersionNumbers v env.version) ∧
    ("error.incorrectVersionFormat" ∈ (App.openDiagram env config input).errors ↔
      env.isValidVersionString v = false) ∧
    (env.isValidVersionString v = false →
      "error.fileVersionNewerThanApplicationVersion" ∉ (App.openDiagram env config input).errors) := by
  have htruthy : truthyString d.SilverDecisions = true := by simp [hversion, truthyString, hne]
  obtain ⟨later, herr, hlater⟩ := openDiagram_errors_of_version env config input d hparsed htruthy
  have hnewer : "error.fileVersionNewerThanApplicationVersion" ∉ later := by
    intro hk
    rcases hlater _ hk with h | h | h <;> exact absurd h (by decide)
  have hformat : "error.incorrectVersionFormat" ∉ later := by
    intro hk
    rcases hlater _ hk with h | h | h <;> exact absurd h (by decide)
  rw [herr, hversion]
  simp only [Option.getD_some, List.mem_append, hnewer, hformat, or_false]
  unfold App.checkVersion
  by_cases hvalid : env.isValidVersionString v = true
  · by_cases hcmp : 0 < env.compareVersionNumbers v env.version <;> simp [hvalid, hcmp]
  · simp [hvalid]

/-- C16, on the sample environment (application version 1.0.0): the file of version 2.0.0
records the newer-version error, and the file of version `two` the format error only. -/
theorem openDiagram_version_errors_witness :
    (App.parseDiagram sampleAppEnv (DiagramInput.value (JsonValue.object
        (sampleDiagram (some "2.0.0")))) = .ok (JsonValue.object (sampleDiagram (some "2.0.0"))) ∧
      (sampleDiagram (some "2.0.0")).SilverDecisions = some "2.0.0" ∧ "2.0.0" ≠ "" ∧
      sampleAppEnv.isValidVersionString "2.0.0" = true ∧
      0 < sampleAppEnv.compareVersionNumbers "2.0.0" sampleAppEnv.version ∧
      sampleAppEnv.isValidVersionString "two" = false) ∧
    "error.fileVersionNewerThanApplicationVersion" ∈ (App.openDiagram sampleAppEnv sampleConfig
      (DiagramInput.value (JsonValue.object (sampleDiagram (some "2.0.0"))))).errors ∧
    "error.incorrectVersionFormat" ∈ (App.openDiagram sampleAppEnv sampleConfig
      (DiagramInput.value (JsonValue.object (sampleDiagram (some "two"))))).errors ∧
    "error.fileVersionNewerThanApplicationVersion" ∉ (App.openDiagram sampleAppEnv sampleConfig
      (DiagramInput.value (JsonValue.object (sampleDiagram (some "two"))))).errors :=
  ⟨⟨rfl, rfl, by decide, by decide, by decide, by decide⟩,
    (openDiagram_version_errors sampleAppEnv sampleConfig
      (DiagramInput.value (JsonValue.object (sampleDiagram (some "2.0.0"))))
      (sampleDiagram (some "2.0.0")) "2.0.0" rfl rfl (by decide)).1.2 ⟨by decide, by decide⟩,
    (openDiagram_version_errors sampleAppEnv sampleConfig
      (DiagramInput.value (JsonValue.object (sampleDiagram (some "two"))))
      (sampleDiagram (some "two")) "two" rfl rfl (by decide)).2.1.2 (by decide),
    (openDiagram_version_errors sampleAppEnv sampleConfig
      (DiagramInput.value (JsonValue.object (sampleDiagram (some "two"))))
      (sampleDiagram (some "two")) "two" rfl rfl (by decide)).2.2 (by decide)⟩

theorem clears_after_clear :
    dataModelClears (App.clear ++ [AppAction.alert "error.notSilverDecisionsFile"]) = 1 := by
  decide

/-- C17 fails on a file without the `SilverDecisions` property: `openDiagram` returns
`error.notSilverDecisionsFile`, and by then `clear()` has run, so the data model, the title,
the description and the configuration of the tree designer have been reset. -/
theorem openDiagram_not_silver_decisions_counterexample :
    (App.openDiagram sampleAppEnv sampleConfig
      (DiagramInput.value (JsonValue.object (sampleDiagram none)))).errors
      = ["error.notSilverDecisionsFile"] ∧
    (App.openDiagram sampleAppEnv sampleConfig
      (DiagramInput.value (JsonValue.object (sampleDiagram none)))).actions
      = [AppAction.dataModelClear, AppAction.setDiagramTitle "",
          AppAction.setDiagramDescription "", AppAction.treeDesignerSetConfig none,
          AppAction.onSelectionCleared, AppAction.sensitivityAnalysisDialogClear,
          AppAction.alert "error.notSilverDecisionsFile"] ∧
    dataModelClears (App.openDiagram sampleAppEnv sampleConfig
      (DiagramInput.value (JsonValue.object (sampleDiagram none)))).actions = 1 := by
  refine ⟨by decide, by decide, by decide⟩

/-- C17, amended: whenever the errors of `openDiagram` contain `error.jsonParse`, the call
only alerted and logged: no step of `clear()` was performed and the configuration is
untouched. Whenever they contain `error.notSilverDecisionsFile`, `clear()` was performed,
once, before the alert: the data model, title, description and tree-designer configuration
have been reset when the error list is returned. -/
theorem openDiagram_rejection_paths (env : AppEnv) (config : DiagramConfig)
    (input : DiagramInput) :
    ("error.jsonParse" ∈ (App.openDiagram env config input).errors →
      (App.openDiagram env config input).errors = ["error.jsonParse"] ∧
      (App.openDiagram env config input).outcome = OpenOutcome.resolved ∧
      (App.openDiagram env config input).actions
        = [AppAction.alert "error.jsonParse", AppAction.logError "jsonParse"] ∧
      (∀ a ∈ App.clear, a ∉ (App.openDiagram env config input).actions) ∧
      (App.openDiagram env config input).config = config) ∧
    ("error.notSilverDecisionsFile" ∈ (App.openDiagram env config input).errors →
      (App.openDiagram env config input).errors = ["error.notSilverDecisionsFile"] ∧
      (App.openDiagram env config input).outcome = OpenOutcome.resolved ∧
      (App.openDiagram env config input).actions
        = App.clear ++ [AppAction.alert "error.notSilverDecisionsFile"] ∧
      dataModelClears (App.openDiagram env config input).actions = 1 ∧
      (App.openDiagram env config input).config = config) := by
  rcases hparsed : App.parseDiagram env input with e | value
  · have hopen : App.openDiagram env config input
        = { outcome := OpenOutcome.resolved, errors := ["error.jsonParse"]
            actions := [AppAction.alert "error.jsonParse", AppAction.logError "jsonParse"]
            config := config } := by
      simp [App.openDiagram, hparsed]
    rw [hopen]
    have hclear : ∀ a ∈ App.clear,
        a ∉ [AppAction.alert "error.jsonParse", AppAction.logError "jsonParse"] := by decide
    refine ⟨fun _ => ⟨rfl, rfl, rfl, hclear, rfl⟩, fun h => ?_⟩
    simp at h
  · cases value with
    | null =>
      have hopen : App.openDiagram env config input
          = { outcome := OpenOutcome.thrown, errors := [], actions := [], config := config } := by
        simp [App.openDiagram, hparsed]
      rw [hopen]
      exact ⟨fun h => by simp at h, fun h => by simp at h⟩
    | primitive =>
      have hopen : App.openDiagram env config input
          = { outcome := OpenOutcome.resolved, errors := ["error.notSilverDecisionsFile"]
              actions := App.clear ++ [AppAction.alert "error.notSilverDecisionsFile"]
              config := config } := by
        simp [App.openDiagram, hparsed]
      rw [hopen]
      exact ⟨fun h => by simp at h, fun _ => ⟨rfl, rfl, rfl, clears_after_clear, rfl⟩⟩
    | object d =>
      by_cases htruthy : truthyString d.SilverDecisions = true
      · obtain ⟨later, herr, hlater⟩ :=
          openDiagram_errors_of_version env config input d hparsed htruthy
        have hkeys : ∀ k ∈ (App.openDiagram env config input).errors,
            k ≠ "error.jsonParse" ∧ k ≠ "error.notSilverDecisionsFile" := by
          intro k hk
          rw [herr, List.mem_append] at hk
          rcases hk with hk | hk
          · unfold App.checkVersion at hk
            by_cases hvalid : env.isValidVersionString (d.SilverDecisions.getD "") = true
            · by_cases hcmp : env.compareVersionNumbers (d.SilverDecisions.getD "")
                  env.version > 0
              · simp [hvalid, hcmp] at hk
                subst hk
                exact ⟨by decide, by decide⟩
              · simp [hvalid, hcmp] at hk
            · simp [hvalid] at hk
              subst hk
              exact ⟨by decide, by decide⟩
          · rcases hlater k hk with h | h | h <;> subst h <;> exact ⟨by decide, by decide⟩
        exact ⟨fun h => absurd rfl (hkeys _ h).1, fun h => absurd rfl (hkeys _ h).2⟩
      · have hopen : App.openDiagram env config input
            = { outcome := OpenOutcome.resolved, errors := ["error.notSilverDecisionsFile"]
                actions := App.clear ++ [AppAction.alert "error.notSilverDecisionsFile"]
                config := config } := by
          simp [App.openDiagram, hparsed, htruthy]
        rw [hopen]
        exact ⟨fun h => by simp at h, fun _ => ⟨rfl, rfl, rfl, clears_after_clear, rfl⟩⟩

/-- C17, amended, on the sample environment: a text that does not parse leaves everything
untouched, and an object without the `SilverDecisions` property is answered after
`clear()`. -/
theorem openDiagram_rejection_paths_witness :
    ("error.jsonParse" ∈ (App.openDiagram sampleAppEnv sampleConfig
        (DiagramInput.text "not json")).errors ∧
      "error.notSilverDecisionsFile" ∈ (App.openDiagram sampleAppEnv sampleConfig
        (DiagramInput.value (JsonValue.object (sampleDiagram (some ""))))).errors) ∧
    (App.openDiagram sampleAppEnv sampleConfig (DiagramInput.text "not json")).actions
      = [AppAction.alert "error.jsonParse", AppAction.logError "jsonParse"] ∧
    dataModelClears (App.openDiagram sampleAppEnv sampleConfig
      (DiagramInput.value (JsonValue.object (sampleDiagram (some ""))))).actions = 1 :=
  ⟨⟨by decide, by decide⟩,
    ((openDiagram_rejection_paths sampleAppEnv sampleConfig (DiagramInput.text "not json")).1
      (by decide)).2.2.1,
    ((openDiagram_rejection_paths sampleAppEnv sampleConfig
      (DiagramInput.value (JsonValue.object (sampleDiagram (some ""))))).2 (by decide)).2.2.2.1⟩

end SilverDecisions
